import Mathlib

/-!
Verification of the Smart Pill Box firmware core: a shallow embedding of the
dose scheduler (`DoseManager`), the alarm pattern engine (`AlarmController`),
the debounced inputs (`ButtonHandler`, `LidSensor`), the persistence layout
(`Storage`) and the main coordination loop, together with theorems about the
specified behaviour.  Machine integers (`uint8_t`, `uint16_t`, `uint32_t`) are
modelled as `Nat`, with an explicit `% 2^w` at the points where the C++ code
narrows a wider intermediate result back into a fixed-width field.  The
millisecond clock `millis()` is modelled as a monotonically increasing `Nat`
passed explicitly to each operation that reads it.
-/

namespace PillBox

/-- 12-hour time format structure (`Time12H` in `config.h`): `hour` 1-12,
`minute` 0-59, `isPM` false = AM / true = PM. -/
structure Time12H where
  hour : Nat
  minute : Nat
  isPM : Bool
deriving DecidableEq, Repr, Inhabited

/-- Dose schedule structure (`Dose` in `config.h`). -/
structure Dose where
  time : Time12H
  enabled : Bool
  taken : Bool
  id : Nat
deriving DecidableEq, Repr, Inhabited

/-- `TimeManager::isTimeMatch`: field-wise equality of two 12-hour times. -/
def isTimeMatch (t1 t2 : Time12H) : Bool :=
  t1.hour == t2.hour && t1.minute == t2.minute && t1.isPM == t2.isPM

/-- `TimeManager::convert12to24`: 12-hour to 24-hour conversion; the C++
function returns `uint8_t`, hence the `% 256`. -/
def convert12to24 (t : Time12H) : Nat :=
  (if t.isPM then
    (if t.hour == 12 then 12 else t.hour + 12)
  else
    (if t.hour == 12 then 0 else t.hour)) % 256

/-- `TimeManager::isValidTime`: hour 1-12, minute 0-59 (`minute` is unsigned,
so only the upper bound is checked). -/
def isValidTime (t : Time12H) : Bool :=
  1 ≤ t.hour && t.hour ≤ 12 && t.minute ≤ 59

/-- `DoseManager::timeToMinutes`: minutes since midnight; the C++ function
returns `uint16_t`, hence the `% 65536`. -/
def timeToMinutes (t : Time12H) : Nat :=
  (convert12to24 t * 60 + t.minute) % 65536

/-- MAX_DOSES from `config.h`. -/
def MAX_DOSES : Nat := 10

/-- MIN_DOSE_SPACING from `config.h` (minutes). -/
def MIN_DOSE_SPACING : Nat := 15

/-- Loop body of `DoseManager::checkDoseTime`, scanning `doses[i..]` with `i`
the index of the head of the remaining list. -/
def checkDoseTimeAux (currentTime : Time12H) : List Dose → Nat → Option Nat
  | [], _ => none
  | d :: rest, i =>
      if d.enabled && !d.taken then
        if isTimeMatch currentTime d.time then some i
        else checkDoseTimeAux currentTime rest (i + 1)
      else checkDoseTimeAux currentTime rest (i + 1)

/-- `DoseManager::checkDoseTime`: linear scan returning the first matching
enabled, untaken dose index (`none` models the C++ return value `-1`). -/
def checkDoseTime (doses : List Dose) (currentTime : Time12H) : Option Nat :=
  checkDoseTimeAux currentTime doses 0

/-- The scan condition of `checkDoseTime` for a single dose: enabled, not yet
taken, and an exact time-of-day match. -/
def doseDue (currentTime : Time12H) (d : Dose) : Bool :=
  d.enabled && !d.taken && isTimeMatch currentTime d.time

/-- `DoseManager::markDoseTaken`: sets the `taken` flag when the index is in
range, otherwise does nothing. -/
def markDoseTaken (doses : List Dose) (index : Nat) : List Dose :=
  if h : index < doses.length then
    doses.set index { doses.get ⟨index, h⟩ with taken := true }
  else doses

/-- `DoseManager::setDoseEnabled`: sets the `enabled` flag when the index is in
range, otherwise does nothing. -/
def setDoseEnabled (doses : List Dose) (index : Nat) (enabled : Bool) : List Dose :=
  if h : index < doses.length then
    doses.set index { doses.get ⟨index, h⟩ with enabled := enabled }
  else doses

/-- `DoseManager::getDose`: returns the dose at `index`, or `none` (modelling
the C++ `nullptr`) when the index is out of range. -/
def getDose (doses : List Dose) (index : Nat) : Option Dose :=
  if index < doses.length then doses[index]? else none

/-- `DoseManager::resetDailyStatus`: clears every `taken` flag. -/
def resetDailyStatus (doses : List Dose) : List Dose :=
  doses.map fun d => { d with taken := false }

/-- Identifier reassignment loop (`doses[i].id = i` starting at position
`start`), shared by `sortDoses` and `removeDose`. -/
def reassignIdsAux : List Dose → Nat → List Dose
  | [], _ => []
  | d :: rest, i => { d with id := i } :: reassignIdsAux rest (i + 1)

/-- `DoseManager::removeDose`: rejects an out-of-range index; otherwise shifts
the later doses down one position, reassigning their identifiers. -/
def removeDose (doses : List Dose) (index : Nat) : Bool × List Dose :=
  if doses.length ≤ index then (false, doses)
  else (true, doses.take index ++ reassignIdsAux (doses.drop (index + 1)) index)

/-! Basic facts about the index scan of `checkDoseTime`. -/

theorem doseDue_false_of_not_pre (currentTime : Time12H) (d : Dose)
    (h : ¬ ((d.enabled && !d.taken) = true)) : doseDue currentTime d = false := by
  cases he : d.enabled <;> cases ht : d.taken <;> simp_all [doseDue]

theorem doseDue_false_of_not_match (currentTime : Time12H) (d : Dose)
    (h : ¬ (isTimeMatch currentTime d.time = true)) : doseDue currentTime d = false := by
  cases he : d.enabled <;> cases ht : d.taken <;> simp_all [doseDue]

theorem checkDoseTimeAux_none (currentTime : Time12H) :
    ∀ (l : List Dose) (i : Nat), checkDoseTimeAux currentTime l i = none →
      ∀ d ∈ l, doseDue currentTime d = false := by
  intro l
  induction l with
  | nil => intro i _ d hd; cases hd
  | cons d rest ih =>
      intro i h e he
      by_cases hdue : (d.enabled && !d.taken) = true
      · by_cases hm : isTimeMatch currentTime d.time = true
        · simp [checkDoseTimeAux, hdue, hm] at h
        · rcases List.mem_cons.mp he with rfl | he
          · exact doseDue_false_of_not_match currentTime e hm
          · simp only [checkDoseTimeAux, hdue, if_true] at h
            rw [if_neg (by simpa using hm)] at h
            exact ih (i + 1) h e he
      · rcases List.mem_cons.mp he with rfl | he
        · exact doseDue_false_of_not_pre currentTime e hdue
        · simp only [checkDoseTimeAux, hdue, if_false, Bool.false_eq_true] at h
          exact ih (i + 1) h e he

theorem checkDoseTimeAux_some (currentTime : Time12H) :
    ∀ (l : List Dose) (i k : Nat), checkDoseTimeAux currentTime l i = some k →
      ∃ pre d post, l = pre ++ d :: post ∧ i + pre.length = k ∧
        doseDue currentTime d = true ∧ ∀ e ∈ pre, doseDue currentTime e = false := by
  intro l
  induction l with
  | nil => intro i k h; simp [checkDoseTimeAux] at h
  | cons d rest ih =>
      intro i k h
      by_cases hdue : (d.enabled && !d.taken) = true
      · by_cases hm : isTimeMatch currentTime d.time = true
        · refine ⟨[], d, rest, rfl, ?_, ?_, by simp⟩
          · simp only [checkDoseTimeAux, hdue, if_true, hm] at h
            simpa using Option.some.inj h
          · simp [doseDue, Bool.and_eq_true] at hdue ⊢
            simp [hdue, hm]
        · simp only [checkDoseTimeAux, hdue, if_true] at h
          rw [if_neg (by simpa using hm)] at h
          obtain ⟨pre, e, post, hl, hk, hdue', hpre⟩ := ih (i + 1) k h
          refine ⟨d :: pre, e, post, by simp [hl], by simp [← hk]; omega, hdue', ?_⟩
          intro x hx
          rcases List.mem_cons.mp hx with rfl | hx
          · exact doseDue_false_of_not_match currentTime x hm
          · exact hpre x hx
      · simp only [checkDoseTimeAux, hdue, if_false, Bool.false_eq_true] at h
        obtain ⟨pre, e, post, hl, hk, hdue', hpre⟩ := ih (i + 1) k h
        refine ⟨d :: pre, e, post, by simp [hl], by simp [← hk]; omega, hdue', ?_⟩
        intro x hx
        rcases List.mem_cons.mp hx with rfl | hx
        · exact doseDue_false_of_not_pre currentTime x hdue
        · exact hpre x hx

/-- Claim C1: `checkDoseTime` returns the index of the first dose in scan order
that is enabled, not yet taken, and whose hour, minute and AM/PM flag all equal
those of the current time; it returns no index (`-1` in the C++ code) exactly
when no such dose exists.  In particular a returned index always points at an
enabled, untaken, time-matching dose, never at a taken or disabled one. -/
theorem C1_checkDoseTime_first_match (doses : List Dose) (currentTime : Time12H) :
    (∀ k, checkDoseTime doses currentTime = some k →
      ∃ pre d post, doses = pre ++ d :: post ∧ pre.length = k ∧
        d.enabled = true ∧ d.taken = false ∧ isTimeMatch currentTime d.time = true ∧
        ∀ e ∈ pre, doseDue currentTime e = false) ∧
    (checkDoseTime doses currentTime = none →
      ∀ d ∈ doses, doseDue currentTime d = false) := by
  constructor
  · intro k h
    obtain ⟨pre, d, post, hl, hk, hdue, hpre⟩ :=
      checkDoseTimeAux_some currentTime doses 0 k h
    simp [doseDue, Bool.and_eq_true] at hdue
    exact ⟨pre, d, post, hl, by omega, hdue.1.1, by simpa using hdue.1.2, hdue.2, hpre⟩
  · intro h
    exact checkDoseTimeAux_none currentTime doses 0 h

/-- Witness for C1 at a concrete input: with a taken dose followed by a due
dose at 8:30 AM, the scan returns index 1 and the decomposition produced by the
theorem exhibits the skipped prefix. -/
theorem C1_checkDoseTime_first_match_witness :
    ∃ pre d post,
      ([⟨⟨8, 30, false⟩, true, true, 0⟩, ⟨⟨8, 30, false⟩, true, false, 1⟩] : List Dose) =
        pre ++ d :: post ∧ pre.length = 1 ∧
      d.enabled = true ∧ d.taken = false ∧ isTimeMatch ⟨8, 30, false⟩ d.time = true ∧
      ∀ e ∈ pre, doseDue ⟨8, 30, false⟩ e = false :=
  (C1_checkDoseTime_first_match
    [⟨⟨8, 30, false⟩, true, true, 0⟩, ⟨⟨8, 30, false⟩, true, false, 1⟩]
    ⟨8, 30, false⟩).1 1 (by decide)

/-- Claim C10: for an index at or past the current dose count, `getDose`
returns a null result, `markDoseTaken` and `setDoseEnabled` leave the dose
sequence unchanged, and `removeDose` returns `false` without mutating
anything. -/
theorem C10_out_of_range_index_safe (doses : List Dose) (index : Nat) (enabled : Bool)
    (h : doses.length ≤ index) :
    getDose doses index = none ∧
    markDoseTaken doses index = doses ∧
    setDoseEnabled doses index enabled = doses ∧
    removeDose doses index = (false, doses) := by
  refine ⟨?_, ?_, ?_, ?_⟩
  · simp [getDose, Nat.not_lt.mpr h]
  · simp [markDoseTaken, Nat.not_lt.mpr h]
  · simp [setDoseEnabled, Nat.not_lt.mpr h]
  · simp [removeDose, h]

/-- Witness for C10 at a concrete input: index 5 on a one-dose sequence. -/
theorem C10_out_of_range_index_safe_witness :
    ([⟨⟨9, 0, true⟩, true, false, 0⟩] : List Dose).length ≤ 5 ∧
    (getDose [⟨⟨9, 0, true⟩, true, false, 0⟩] 5 = none ∧
     markDoseTaken [⟨⟨9, 0, true⟩, true, false, 0⟩] 5 = [⟨⟨9, 0, true⟩, true, false, 0⟩] ∧
     setDoseEnabled [⟨⟨9, 0, true⟩, true, false, 0⟩] 5 false = [⟨⟨9, 0, true⟩, true, false, 0⟩] ∧
     removeDose [⟨⟨9, 0, true⟩, true, false, 0⟩] 5 = (false, [⟨⟨9, 0, true⟩, true, false, 0⟩])) :=
  ⟨by decide,
   C10_out_of_range_index_safe [⟨⟨9, 0, true⟩, true, false, 0⟩] 5 false (by decide)⟩

/-! Arithmetic facts about valid 12-hour times. -/

theorem isValidTime_fields (t : Time12H) (h : isValidTime t = true) :
    1 ≤ t.hour ∧ t.hour ≤ 12 ∧ t.minute ≤ 59 := by
  simpa [isValidTime, Bool.and_eq_true, decide_eq_true_eq, and_assoc] using h

theorem convert12to24_lt (t : Time12H) (h : isValidTime t = true) :
    convert12to24 t < 24 := by
  obtain ⟨h1, h2, _⟩ := isValidTime_fields t h
  unfold convert12to24
  rcases hpm : t.isPM <;> rcases h12 : t.hour == 12 <;>
    simp_all [Nat.mod_eq_of_lt] <;> omega

theorem timeToMinutes_eq (t : Time12H) (h : isValidTime t = true) :
    timeToMinutes t = convert12to24 t * 60 + t.minute := by
  obtain ⟨_, _, h3⟩ := isValidTime_fields t h
  have hc := convert12to24_lt t h
  unfold timeToMinutes
  exact Nat.mod_eq_of_lt (by omega)

theorem timeToMinutes_lt (t : Time12H) (h : isValidTime t = true) :
    timeToMinutes t < 1440 := by
  obtain ⟨_, _, h3⟩ := isValidTime_fields t h
  have hc := convert12to24_lt t h
  rw [timeToMinutes_eq t h]
  omega

/-! Persistence layout (`Storage::saveDoses` / `Storage::loadDoses`): one
4-byte record per dose — hour, minute, AM/PM as 0/1, enabled as 0/1 —
followed by a CRC-8 (polynomial 0x07) over the record block, with the record
count stored alongside. -/

/-- One shift step of `Storage::calculateCRC` (the inner loop body): shift
left and xor with the polynomial 0x07 when the top bit was set, truncated to
`uint8_t`. -/
def crcShift (crc : Nat) : Nat :=
  if crc &&& 128 ≠ 0 then ((crc * 2) ^^^ 7) % 256 else (crc * 2) % 256

/-- Per-byte step of `Storage::calculateCRC`: xor the byte in, then shift
eight times. -/
def crcByteStep (crc b : Nat) : Nat := crcShift^[8] (crc ^^^ b)

/-- `Storage::calculateCRC`: CRC-8 with polynomial 0x07 over a byte block. -/
def calculateCRC (data : List Nat) : Nat := data.foldl crcByteStep 0

/-- Serialisation loop of `Storage::saveDoses`: each dose becomes the four
bytes `[hour, minute, isPM, enabled]` (each narrowed to `uint8_t`). -/
def serializeDoses : List Dose → List Nat
  | [] => []
  | d :: rest =>
      d.time.hour % 256 :: d.time.minute % 256 ::
        (if d.time.isPM then 1 else 0) :: (if d.enabled then 1 else 0) ::
        serializeDoses rest

/-- The persisted record block: dose count, record bytes and CRC byte, as
written by `Storage::saveDoses` under its Preferences keys. -/
structure StoredDoses where
  doseCount : Nat
  doseBytes : List Nat
  crc : Nat
deriving DecidableEq, Repr

/-- `Storage::saveDoses`: stores the count (a `uint8_t`), the serialised
record block, and the CRC over that block. -/
def saveDoses (doses : List Dose) : StoredDoses :=
  { doseCount := doses.length % 256,
    doseBytes := serializeDoses doses,
    crc := calculateCRC (serializeDoses doses) }

/-- Deserialisation of one dose record in `Storage::loadDoses` (offset
`i * 4`): `taken` is reset to false and `id` set to the position. -/
def decodeDose (bytes : List Nat) (i : Nat) : Dose :=
  { time := { hour := bytes.getD (4 * i) 0,
              minute := bytes.getD (4 * i + 1) 0,
              isPM := bytes.getD (4 * i + 2) 0 == 1 },
    enabled := bytes.getD (4 * i + 3) 0 == 1,
    taken := false,
    id := i }

/-- `Storage::loadDoses`: rejects a zero or over-capacity count, a short
read, or a CRC mismatch (returning an empty sequence); otherwise decodes
`count` records. -/
def loadDoses (st : StoredDoses) : List Dose :=
  if st.doseCount = 0 ∨ st.doseCount > MAX_DOSES then []
  else if st.doseBytes.length ≠ st.doseCount * 4 then []
  else if st.crc ≠ calculateCRC st.doseBytes then []
  else (List.range st.doseCount).map (decodeDose st.doseBytes)

theorem serializeDoses_length (l : List Dose) :
    (serializeDoses l).length = 4 * l.length := by
  induction l with
  | nil => rfl
  | cons d rest ih => simp [serializeDoses, ih]; omega

theorem decodeDose_serialize_head (xh xm : Nat) (xpm xen xtk : Bool) (xid : Nat)
    (rest : List Dose) (hh : xh < 256) (hm : xm < 256) :
    decodeDose (serializeDoses (⟨⟨xh, xm, xpm⟩, xen, xtk, xid⟩ :: rest)) 0 =
      ⟨⟨xh, xm, xpm⟩, xen, false, 0⟩ := by
  have hdec : decodeDose (serializeDoses (⟨⟨xh, xm, xpm⟩, xen, xtk, xid⟩ :: rest)) 0 =
      { time := { hour := xh % 256, minute := xm % 256, isPM := (if xpm then 1 else 0) == 1 },
        enabled := (if xen then 1 else 0) == 1, taken := false, id := 0 } := rfl
  rw [hdec, Nat.mod_eq_of_lt hh, Nat.mod_eq_of_lt hm]
  cases xpm <;> cases xen <;> rfl

theorem decodeDose_serialize (l : List Dose) :
    ∀ (i : Nat) (d : Dose), l[i]? = some d →
      d.time.hour < 256 → d.time.minute < 256 →
      decodeDose (serializeDoses l) i =
        { time := d.time, enabled := d.enabled, taken := false, id := i } := by
  induction l with
  | nil => intro i d h; simp at h
  | cons x rest ih =>
      intro i d h hh hm
      match i with
      | 0 =>
          simp only [List.getElem?_cons_zero, Option.some.injEq] at h
          subst h
          obtain ⟨⟨xh, xm, xpm⟩, xen, xtk, xid⟩ := x
          exact decodeDose_serialize_head xh xm xpm xen xtk xid rest hh hm
      | Nat.succ j =>
          simp only [List.getElem?_cons_succ] at h
          have hrec := ih j d h hh hm
          have e0 : (serializeDoses rest).getD (4 * j) 0 = d.time.hour := by
            have := congrArg (fun z => z.time.hour) hrec; simpa [decodeDose] using this
          have e1 : (serializeDoses rest).getD (4 * j + 1) 0 = d.time.minute := by
            have := congrArg (fun z => z.time.minute) hrec; simpa [decodeDose] using this
          have e2 : ((serializeDoses rest).getD (4 * j + 2) 0 == 1) = d.time.isPM := by
            have := congrArg (fun z => z.time.isPM) hrec; simpa [decodeDose] using this
          have e3 : ((serializeDoses rest).getD (4 * j + 3) 0 == 1) = d.enabled := by
            have := congrArg (fun z => z.enabled) hrec; simpa [decodeDose] using this
          have hgd : ∀ k : Nat,
              (serializeDoses (x :: rest)).getD (4 * (j + 1) + k) 0 =
              (serializeDoses rest).getD (4 * j + k) 0 := by
            intro k
            have harith : 4 * (j + 1) + k = (4 * j + k) + 4 := by omega
            rw [serializeDoses, harith]
            rfl
          have g0 := hgd 0
          have g1 := hgd 1
          have g2 := hgd 2
          have g3 := hgd 3
          simp only [Nat.add_zero] at g0
          simp only [decodeDose]
          rw [g0, g1, g2, g3, e0, e1, e2, e3]

/-- Claim C9: saving any dose sequence of valid times with length at most
MAX_DOSES and loading it back yields a sequence of the same length whose
(hour, minute, AM/PM, enabled) data is identical, with every loaded `taken`
flag false and every loaded `id` equal to its position. -/
theorem C9_storage_round_trip (doses : List Dose)
    (hlen : doses.length ≤ MAX_DOSES)
    (hvalid : ∀ d ∈ doses, isValidTime d.time = true) :
    (loadDoses (saveDoses doses)).length = doses.length ∧
    ∀ (i : Nat) (d : Dose), doses[i]? = some d →
      (loadDoses (saveDoses doses))[i]? =
        some ({ time := d.time, enabled := d.enabled, taken := false, id := i } : Dose) := by
  have hlen10 : doses.length ≤ 10 := by simpa [MAX_DOSES] using hlen
  have hcount : doses.length % 256 = doses.length := Nat.mod_eq_of_lt (by omega)
  by_cases hz : doses.length = 0
  · rw [List.length_eq_zero] at hz
    subst hz
    refine ⟨by simp [loadDoses, saveDoses, serializeDoses], ?_⟩
    intro i d h
    rw [List.getElem?_nil] at h
    exact Option.noConfusion h
  · have hload : loadDoses (saveDoses doses) =
        (List.range doses.length).map (decodeDose (serializeDoses doses)) := by
      unfold loadDoses saveDoses
      rw [if_neg, if_neg, if_neg]
      · simp [hcount]
      · simp
      · simp only [hcount, serializeDoses_length]
        omega
      · simp only [hcount, MAX_DOSES]
        push_neg
        exact ⟨hz, by omega⟩
    refine ⟨by simp [hload], ?_⟩
    intro i d h
    have hi : i < doses.length := by
      by_contra hge
      rw [List.getElem?_eq_none (by omega)] at h
      exact Option.noConfusion h
    have hd : d ∈ doses := by
      obtain ⟨hlt, rfl⟩ := List.getElem?_eq_some_iff.mp h
      exact List.getElem_mem hlt
    obtain ⟨h1, h2, h3⟩ := isValidTime_fields d.time (hvalid d hd)
    rw [hload]
    rw [List.getElem?_map, List.getElem?_range hi]
    simp only [Option.map_some']
    rw [decodeDose_serialize doses i d h (by omega) (by omega)]

/-- Witness for C9 at a concrete input: a two-dose sequence (one taken, one
disabled) round-trips with `taken` cleared and positional identifiers. -/
theorem C9_storage_round_trip_witness :
    ([⟨⟨8, 0, false⟩, true, true, 7⟩, ⟨⟨6, 30, true⟩, false, false, 9⟩] : List Dose).length
      ≤ MAX_DOSES ∧
    ((loadDoses (saveDoses
        [⟨⟨8, 0, false⟩, true, true, 7⟩, ⟨⟨6, 30, true⟩, false, false, 9⟩])).length = 2 ∧
     ∀ (i : Nat) (d : Dose),
        ([⟨⟨8, 0, false⟩, true, true, 7⟩, ⟨⟨6, 30, true⟩, false, false, 9⟩] :
          List Dose)[i]? = some d →
        (loadDoses (saveDoses
          [⟨⟨8, 0, false⟩, true, true, 7⟩, ⟨⟨6, 30, true⟩, false, false, 9⟩]))[i]? =
          some ({ time := d.time, enabled := d.enabled, taken := false, id := i } : Dose)) :=
  ⟨by decide,
   C9_storage_round_trip
     [⟨⟨8, 0, false⟩, true, true, 7⟩, ⟨⟨6, 30, true⟩, false, false, 9⟩]
     (by decide) (by decide)⟩

/-! Alarm pattern engine (`AlarmController`). -/

/-- Alarm pattern types (`AlarmPattern` in `AlarmController.h`). -/
inductive AlarmPattern
  | gentle
  | standard
  | urgent
  | confirm
deriving DecidableEq, Repr, Inhabited

/-- `AlarmController::GENTLE_PATTERN` (on/off durations in ms). -/
def GENTLE_PATTERN : List Nat := [200, 1500, 200, 1500, 200, 3000]

/-- `AlarmController::STANDARD_PATTERN` (on/off durations in ms). -/
def STANDARD_PATTERN : List Nat := [500, 500, 500, 500, 500, 1000]

/-- `AlarmController::URGENT_PATTERN` (on/off durations in ms). -/
def URGENT_PATTERN : List Nat := [200, 200, 200, 200, 200, 200]

/-- State fields of `AlarmController`. -/
structure AlarmState where
  active : Bool
  snoozed : Bool
  buzzerEnabled : Bool
  buzzerOn : Bool
  volume : Nat
  currentPattern : AlarmPattern
  snoozeEndTime : Nat
  lastToggle : Nat
  patternStep : Nat
deriving DecidableEq, Repr, Inhabited

/-- `AlarmController::getCurrentPattern`. -/
def getCurrentPattern (s : AlarmState) : List Nat :=
  match s.currentPattern with
  | .gentle => GENTLE_PATTERN
  | .urgent => URGENT_PATTERN
  | _ => STANDARD_PATTERN

/-- `AlarmController::getPatternLength`. -/
def getPatternLength (s : AlarmState) : Nat :=
  match s.currentPattern with
  | .gentle => GENTLE_PATTERN.length
  | .urgent => URGENT_PATTERN.length
  | _ => STANDARD_PATTERN.length

/-- `AlarmController::buzzerOutput`: records the requested output level (the
physical tone additionally requires `buzzerEnabled`, which is hardware-side
and not part of the session state). -/
def buzzerOutput (s : AlarmState) (level : Bool) : AlarmState :=
  { s with buzzerOn := level }

/-- `AlarmController::begin`: the initial alarm session state. -/
def alarmBegin : AlarmState :=
  { active := false, snoozed := false, buzzerEnabled := true, buzzerOn := false,
    volume := 128, currentPattern := .standard, snoozeEndTime := 0,
    lastToggle := 0, patternStep := 0 }

/-- `AlarmController::startAlarm`: a silent no-op while the buzzer is
administratively disabled; otherwise activates, clears snooze, resets the
pattern to step 0 and asserts the output. -/
def startAlarm (s : AlarmState) (now : Nat) (pattern : AlarmPattern) : AlarmState :=
  if !s.buzzerEnabled then s
  else
    buzzerOutput
      { s with active := true, snoozed := false, currentPattern := pattern,
               patternStep := 0, lastToggle := now } true

/-- `AlarmController::stopAlarm`. -/
def stopAlarm (s : AlarmState) : AlarmState :=
  { buzzerOutput { s with active := false, snoozed := false } false with
      patternStep := 0 }

/-- `AlarmController::snooze`: only valid while active; forces the output off
and records the snooze deadline `now + seconds * 1000`. -/
def snooze (s : AlarmState) (now : Nat) (seconds : Nat) : AlarmState :=
  if !s.active then s
  else
    buzzerOutput { s with snoozed := true, snoozeEndTime := now + seconds * 1000 } false

/-- `AlarmController::update`: ends an expired snooze (resuming the pattern
from step 0 with the output asserted), otherwise advances the looping on/off
pattern when the current step duration has elapsed. -/
def alarmUpdate (s : AlarmState) (now : Nat) : AlarmState :=
  if s.snoozed && s.active then
    if s.snoozeEndTime ≤ now then
      buzzerOutput { s with snoozed := false, patternStep := 0, lastToggle := now } true
    else s
  else if s.active && !s.snoozed then
    if (getCurrentPattern s).getD s.patternStep 0 ≤ now - s.lastToggle then
      let step1 := s.patternStep + 1
      let step2 := if getPatternLength s ≤ step1 then 0 else step1
      buzzerOutput { s with patternStep := step2, lastToggle := now } (step2 % 2 == 0)
    else s
  else s

/-- `AlarmController::getSnoozeRemaining`: 0 when not snoozed or past the
deadline, otherwise the remaining whole seconds (the C++ function returns
`uint16_t`, hence the `% 65536`). -/
def getSnoozeRemaining (s : AlarmState) (now : Nat) : Nat :=
  if s.snoozed = false ∨ s.snoozeEndTime ≤ now then 0
  else ((s.snoozeEndTime - now) / 1000) % 65536

/-- The alarm-session invariant of the data model: `snoozed` only while
`active`, and the output is off when the session is fully inactive. -/
def AlarmInv (s : AlarmState) : Prop :=
  (s.snoozed = true → s.active = true) ∧
  (s.active = false → s.snoozed = false → s.buzzerOn = false)

/-- Claim C6: the alarm-session invariant — snoozed implies active, and a
fully inactive session has the buzzer output off — holds after `begin()` and
is preserved by `startAlarm`, `stopAlarm`, `snooze` and `update`, for every
state, clock value, pattern and duration. -/
theorem C6_alarm_invariant :
    AlarmInv alarmBegin ∧
    (∀ (s : AlarmState) (now : Nat) (p : AlarmPattern),
      AlarmInv s → AlarmInv (startAlarm s now p)) ∧
    (∀ s : AlarmState, AlarmInv s → AlarmInv (stopAlarm s)) ∧
    (∀ (s : AlarmState) (now seconds : Nat),
      AlarmInv s → AlarmInv (snooze s now seconds)) ∧
    (∀ (s : AlarmState) (now : Nat), AlarmInv s → AlarmInv (alarmUpdate s now)) := by
  refine ⟨⟨by simp [alarmBegin], by simp [alarmBegin]⟩, ?_, ?_, ?_, ?_⟩
  · intro s now p h
    unfold startAlarm buzzerOutput
    split_ifs with hb
    · exact h
    · exact ⟨fun _ => rfl, by simp⟩
  · intro s h
    exact ⟨by simp [stopAlarm, buzzerOutput], by simp [stopAlarm, buzzerOutput]⟩
  · intro s now seconds h
    unfold snooze buzzerOutput
    split_ifs with ha
    · exact h
    · have ha' : s.active = true := by
        revert ha; cases s.active <;> simp
      exact ⟨fun _ => ha', by simp⟩
  · intro s now h
    unfold alarmUpdate buzzerOutput
    split_ifs with h1 h2 h3 h4
    · simp only [Bool.and_eq_true] at h1
      exact ⟨by simp, by simp [h1.2]⟩
    · exact h
    · simp only [Bool.and_eq_true, Bool.not_eq_true'] at h3
      refine ⟨fun hc => by simp_all, fun hc => by simp_all⟩
    · exact h
    · exact h

/-- Witness for C6 at a concrete input: the invariant transported through
`startAlarm` from the initial state. -/
theorem C6_alarm_invariant_witness :
    AlarmInv (startAlarm alarmBegin 500 AlarmPattern.urgent) :=
  C6_alarm_invariant.2.1 alarmBegin 500 AlarmPattern.urgent C6_alarm_invariant.1

/-- Counterexample to claim C5 as stated: with an active snooze ending at
millisecond 10000, the clock strictly advances from 1 to 999 while
`getSnoozeRemaining` stays at 9 seconds — the remaining time is not strictly
decreasing in the millisecond clock, because of the integer division by
1000. -/
theorem C5_counterexample_not_strictly_decreasing :
    (⟨true, true, true, false, 128, .standard, 10000, 0, 0⟩ : AlarmState).snoozed = true ∧
    (1 : Nat) < 999 ∧
    (999 : Nat) < (⟨true, true, true, false, 128, .standard, 10000, 0, 0⟩ :
      AlarmState).snoozeEndTime ∧
    getSnoozeRemaining ⟨true, true, true, false, 128, .standard, 10000, 0, 0⟩ 1 =
      getSnoozeRemaining ⟨true, true, true, false, 128, .standard, 10000, 0, 0⟩ 999 := by
  refine ⟨rfl, by norm_num, by norm_num, ?_⟩
  norm_num [getSnoozeRemaining]

/-- Claim C5 (amended): `getSnoozeRemaining` is 0 whenever `snoozed` is
false; while snoozed it never increases as the millisecond clock advances and
it drops by at least one second per 1000 elapsed milliseconds while positive
(strict decrease per millisecond is impossible with second granularity); and
`update()` at or after the snooze deadline with the alarm still active clears
`snoozed`, resets the pattern step to 0 and asserts the output.  The
`65536000` bound keeps the remaining seconds inside the `uint16_t` return
range, as every snooze set through `snooze(seconds : uint16_t)` does. -/
theorem C5_snooze_remaining (s : AlarmState) (now now' : Nat) :
    (s.snoozed = false → getSnoozeRemaining s now = 0) ∧
    (s.snoozed = true → now ≤ now' → s.snoozeEndTime - now < 65536000 →
      getSnoozeRemaining s now' ≤ getSnoozeRemaining s now) ∧
    (s.snoozed = true → s.snoozeEndTime - now < 65536000 →
      0 < getSnoozeRemaining s now →
      getSnoozeRemaining s (now + 1000) < getSnoozeRemaining s now) ∧
    (s.active = true → s.snoozed = true → s.snoozeEndTime ≤ now →
      (alarmUpdate s now).snoozed = false ∧ (alarmUpdate s now).patternStep = 0 ∧
      (alarmUpdate s now).buzzerOn = true) := by
  refine ⟨?_, ?_, ?_, ?_⟩
  · intro h
    simp [getSnoozeRemaining, h]
  · intro hs hle hbound
    by_cases hend : s.snoozeEndTime ≤ now'
    · simp [getSnoozeRemaining, hend]
    · have hnow : ¬ s.snoozeEndTime ≤ now := by omega
      rw [getSnoozeRemaining, if_neg (by simp [hs]; omega),
        getSnoozeRemaining, if_neg (by simp [hs]; omega)]
      have hdiv : (s.snoozeEndTime - now) / 1000 < 65536 :=
        Nat.div_lt_of_lt_mul (by omega)
      have hdiv' : (s.snoozeEndTime - now') / 1000 < 65536 :=
        Nat.div_lt_of_lt_mul (by omega)
      rw [Nat.mod_eq_of_lt hdiv, Nat.mod_eq_of_lt hdiv']
      exact Nat.div_le_div_right (by omega)
  · intro hs hbound hpos
    have hnow : ¬ s.snoozeEndTime ≤ now := by
      intro hc
      simp [getSnoozeRemaining, hc] at hpos
    have hrem : getSnoozeRemaining s now = (s.snoozeEndTime - now) / 1000 := by
      rw [getSnoozeRemaining, if_neg (by simp [hs, hnow])]
      exact Nat.mod_eq_of_lt (Nat.div_lt_of_lt_mul (by omega))
    rw [hrem] at hpos ⊢
    have h1000 : 1000 ≤ s.snoozeEndTime - now := by
      by_contra hc
      rw [Nat.div_eq_of_lt (by omega)] at hpos
      exact Nat.lt_irrefl 0 hpos
    by_cases hend : s.snoozeEndTime ≤ now + 1000
    · rw [getSnoozeRemaining, if_pos (Or.inr hend)]
      exact hpos
    · have hrem2 : getSnoozeRemaining s (now + 1000) =
          (s.snoozeEndTime - (now + 1000)) / 1000 := by
        rw [getSnoozeRemaining, if_neg (by simp [hs, hend])]
        exact Nat.mod_eq_of_lt (Nat.div_lt_of_lt_mul (by omega))
      rw [hrem2]
      have hq := Nat.div_add_mod (s.snoozeEndTime - now) 1000
      set q := (s.snoozeEndTime - now) / 1000 with hqdef
      set r := (s.snoozeEndTime - now) % 1000 with hrdef
      have hr : r < 1000 := Nat.mod_lt _ (by norm_num)
      have hq1 : 1 ≤ q := by omega
      have hsub : s.snoozeEndTime - (now + 1000) = 1000 * (q - 1) + r := by omega
      rw [hsub, Nat.mul_add_div (by norm_num), Nat.div_eq_of_lt hr, Nat.add_zero]
      omega
  · intro ha hs hend
    unfold alarmUpdate buzzerOutput
    rw [if_pos (by simp [ha, hs]), if_pos hend]
    exact ⟨rfl, rfl, rfl⟩

/-- Witness for C5 at concrete inputs: a snoozed state ending at 5000 ms
evaluated at clocks 0 and 1000, and the resume step at the deadline. -/
theorem C5_snooze_remaining_witness :
    (getSnoozeRemaining ⟨true, false, true, false, 128, .standard, 5000, 0, 2⟩ 77 = 0) ∧
    (getSnoozeRemaining ⟨true, true, true, false, 128, .standard, 5000, 0, 2⟩ 1000 ≤
      getSnoozeRemaining ⟨true, true, true, false, 128, .standard, 5000, 0, 2⟩ 0) ∧
    (getSnoozeRemaining ⟨true, true, true, false, 128, .standard, 5000, 0, 2⟩ (0 + 1000) <
      getSnoozeRemaining ⟨true, true, true, false, 128, .standard, 5000, 0, 2⟩ 0) ∧
    ((alarmUpdate ⟨true, true, true, false, 128, .standard, 5000, 0, 2⟩ 5000).snoozed = false ∧
     (alarmUpdate ⟨true, true, true, false, 128, .standard, 5000, 0, 2⟩ 5000).patternStep = 0 ∧
     (alarmUpdate ⟨true, true, true, false, 128, .standard, 5000, 0, 2⟩ 5000).buzzerOn = true) :=
  ⟨(C5_snooze_remaining ⟨true, false, true, false, 128, .standard, 5000, 0, 2⟩ 77 77).1 rfl,
   (C5_snooze_remaining ⟨true, true, true, false, 128, .standard, 5000, 0, 2⟩ 0 1000).2.1
     rfl (by norm_num) (by norm_num),
   (C5_snooze_remaining ⟨true, true, true, false, 128, .standard, 5000, 0, 2⟩ 0 0).2.2.1
     rfl (by norm_num) (by norm_num [getSnoozeRemaining]),
   (C5_snooze_remaining ⟨true, true, true, false, 128, .standard, 5000, 0, 2⟩ 5000 0).2.2.2
     rfl rfl (by norm_num)⟩

/-! Debounced button input (`ButtonHandler`).  Raw levels are modelled as
`Bool` with `true` = HIGH and `false` = LOW; the buttons are active LOW. -/

/-- Button event enumeration (`ButtonEvent` in `config.h`). -/
inductive ButtonEvent
  | none
  | shortPress
  | longPress
deriving DecidableEq, Repr, Inhabited

/-- DEBOUNCE_DELAY from `config.h` (ms). -/
def DEBOUNCE_DELAY : Nat := 50

/-- LONG_PRESS_DURATION from `config.h` (ms). -/
def LONG_PRESS_DURATION : Nat := 3000

/-- Per-channel state of `ButtonHandler::ButtonState` (the `pin` field is
hardware wiring and not part of the behavioural state). -/
structure BtnState where
  lastReading : Bool
  currentState : Bool
  wasPressed : Bool
  lastDebounceTime : Nat
  pressStartTime : Nat
  longPressTriggered : Bool
  pendingEvent : ButtonEvent
deriving DecidableEq, Repr, Inhabited

/-- `ButtonHandler::processButton` on one channel, instrumented to also
return the event written to `pendingEvent` during this call (if any); the
C++ function communicates only through the state. -/
def processButtonE (b : BtnState) (reading : Bool) (now : Nat) : BtnState × Option ButtonEvent :=
  let b1 := if reading ≠ b.lastReading then { b with lastDebounceTime := now } else b
  let be :=
    if now - b1.lastDebounceTime > DEBOUNCE_DELAY then
      let be1 :=
        if reading ≠ b1.currentState then
          let b2 := { b1 with currentState := reading }
          if reading == false then
            ({ b2 with pressStartTime := now, longPressTriggered := false,
                       wasPressed := true }, (Option.none : Option ButtonEvent))
          else
            if b2.wasPressed && !b2.longPressTriggered then
              ({ b2 with pendingEvent := ButtonEvent.shortPress, wasPressed := false },
               some ButtonEvent.shortPress)
            else
              ({ b2 with wasPressed := false }, Option.none)
        else (b1, Option.none)
      if be1.1.currentState == false && (be1.1.wasPressed && !be1.1.longPressTriggered) then
        if now - be1.1.pressStartTime ≥ LONG_PRESS_DURATION then
          ({ be1.1 with longPressTriggered := true, pendingEvent := ButtonEvent.longPress },
           some ButtonEvent.longPress)
        else be1
      else be1
    else (b1, Option.none)
  ({ be.1 with lastReading := reading }, be.2)

/-- `ButtonHandler::processButton` (state part only, as in the source). -/
def processButton (b : BtnState) (reading : Bool) (now : Nat) : BtnState :=
  (processButtonE b reading now).1

/-- `ButtonHandler::consumeEvent`: returns the pending event and clears it. -/
def consumeEvent (b : BtnState) : ButtonEvent × BtnState :=
  (b.pendingEvent, { b with pendingEvent := ButtonEvent.none })

/-- Runs `processButton` over a sample trace of (raw level, clock) pairs,
collecting the events generated along the way. -/
def runButton : BtnState → List (Bool × Nat) → BtnState × List ButtonEvent
  | b, [] => (b, [])
  | b, (r, t) :: rest =>
      let step := processButtonE b r t
      let restRun := runButton step.1 rest
      (restRun.1, step.2.toList ++ restRun.2)

/-- One sample of a continuing LOW hold: nothing changes unless the long-press
fires, which requires debounce stability, the not-yet-fired flag and the
threshold. -/
theorem processButtonE_held (b : BtnState) (now : Nat)
    (hlr : b.lastReading = false) (hcs : b.currentState = false)
    (hwp : b.wasPressed = true) :
    processButtonE b false now =
      if DEBOUNCE_DELAY < now - b.lastDebounceTime ∧ b.longPressTriggered = false ∧
          LONG_PRESS_DURATION ≤ now - b.pressStartTime then
        ({ b with longPressTriggered := true, pendingEvent := ButtonEvent.longPress },
         some ButtonEvent.longPress)
      else (b, Option.none) := by
  obtain ⟨lr, cs, wp, ldt, pst, lpt, pe⟩ := b
  simp only at hlr hcs hwp
  subst hlr hcs hwp
  cases lpt <;>
    simp [processButtonE, DEBOUNCE_DELAY, LONG_PRESS_DURATION] <;>
    split_ifs <;> simp_all

/-- A LOW hold after the long press has fired generates no further events and
leaves the state unchanged. -/
theorem runButton_held_fired (b : BtnState)
    (hlr : b.lastReading = false) (hcs : b.currentState = false)
    (hwp : b.wasPressed = true) (hlp : b.longPressTriggered = true) :
    ∀ ts : List Nat,
      runButton b (ts.map fun t => (false, t)) = (b, []) := by
  intro ts
  induction ts with
  | nil => rfl
  | cons t rest ih =>
      have hstep := processButtonE_held b t hlr hcs hwp
      rw [if_neg (by simp [hlp])] at hstep
      simp only [List.map_cons, runButton, hstep, ih, Option.toList_none, List.nil_append]

/-- A LOW hold from a freshly confirmed press generates exactly one
LONG_PRESS event — at the first sample that is debounce-stable and past the
threshold — and no SHORT_PRESS, no matter how long the hold lasts. -/
theorem runButton_held_events (b : BtnState)
    (hlr : b.lastReading = false) (hcs : b.currentState = false)
    (hwp : b.wasPressed = true) (hlp : b.longPressTriggered = false) :
    ∀ ts : List Nat,
      (runButton b (ts.map fun t => (false, t))).2 =
        if ts.any fun t => decide (DEBOUNCE_DELAY < t - b.lastDebounceTime) &&
            decide (LONG_PRESS_DURATION ≤ t - b.pressStartTime) then
          [ButtonEvent.longPress]
        else [] := by
  intro ts
  induction ts with
  | nil => rfl
  | cons t rest ih =>
      have hstep := processButtonE_held b t hlr hcs hwp
      by_cases hc : DEBOUNCE_DELAY < t - b.lastDebounceTime ∧
          LONG_PRESS_DURATION ≤ t - b.pressStartTime
      · rw [if_pos ⟨hc.1, hlp, hc.2⟩] at hstep
        have hrest := runButton_held_fired
          { b with longPressTriggered := true, pendingEvent := ButtonEvent.longPress }
          hlr hcs hwp rfl rest
        simp only [List.map_cons, runButton, hstep, hrest]
        rw [if_pos]
        · rfl
        · simp only [List.any_cons, Bool.or_eq_true, Bool.and_eq_true, decide_eq_true_eq]
          exact Or.inl ⟨hc.1, hc.2⟩
      · have hft : (decide (DEBOUNCE_DELAY < t - b.lastDebounceTime) &&
            decide (LONG_PRESS_DURATION ≤ t - b.pressStartTime)) = false := by
          cases hA : decide (DEBOUNCE_DELAY < t - b.lastDebounceTime)
          · simp
          · cases hB : decide (LONG_PRESS_DURATION ≤ t - b.pressStartTime)
            · simp
            · exact absurd ⟨of_decide_eq_true hA, of_decide_eq_true hB⟩ hc
        rw [if_neg (by tauto)] at hstep
        simp only [List.map_cons, runButton, hstep, Option.toList_none, List.nil_append, ih,
          List.any_cons, hft, Bool.false_or]

/-- Claim C8: (i) after a consume call, an immediately following consume on
the same channel returns NONE (the pending event is cleared the instant it is
read); (ii) during a single press-and-hold, exactly one LONG_PRESS event is
generated — at the first debounce-stable sample past the threshold — however
long the button stays held, and no SHORT_PRESS is generated while held; and
(iii) the confirmed release following a fired long press (one sample starting
the debounce window, one sample confirming it) emits nothing, so no
SHORT_PRESS is generated on that release. -/
theorem C8_button_event_delivery :
    (∀ b : BtnState, (consumeEvent (consumeEvent b).2).1 = ButtonEvent.none) ∧
    (∀ (b : BtnState) (ts : List Nat),
      b.lastReading = false → b.currentState = false → b.wasPressed = true →
      b.longPressTriggered = false →
      (runButton b (ts.map fun t => (false, t))).2 =
        if ts.any fun t => decide (DEBOUNCE_DELAY < t - b.lastDebounceTime) &&
            decide (LONG_PRESS_DURATION ≤ t - b.pressStartTime) then
          [ButtonEvent.longPress]
        else []) ∧
    (∀ (b : BtnState) (now1 now2 : Nat),
      b.lastReading = false → b.currentState = false → b.wasPressed = true →
      b.longPressTriggered = true → DEBOUNCE_DELAY < now2 - now1 →
      processButtonE b true now1 =
        ({ b with lastReading := true, lastDebounceTime := now1 }, Option.none) ∧
      processButtonE { b with lastReading := true, lastDebounceTime := now1 } true now2 =
        ({ b with lastReading := true, lastDebounceTime := now1,
                  currentState := true, wasPressed := false }, Option.none)) := by
  refine ⟨fun b => rfl, ?_, ?_⟩
  · intro b ts h1 h2 h3 h4
    exact runButton_held_events b h1 h2 h3 h4 ts
  · intro b now1 now2 hlr hcs hwp hlp hgap
    obtain ⟨lr, cs, wp, ldt, pst, lpt, pe⟩ := b
    simp only at hlr hcs hwp hlp
    subst hlr hcs hwp hlp
    constructor
    · simp [processButtonE, DEBOUNCE_DELAY, LONG_PRESS_DURATION]
    · simp only [DEBOUNCE_DELAY] at hgap
      simp [processButtonE, DEBOUNCE_DELAY, LONG_PRESS_DURATION, hgap]

/-- Witness for C8 at concrete inputs: a double consume on a channel holding a
short press; a hold sampled at 100, 4000 and 10000 ms after a press at 0 ms
firing exactly one LONG_PRESS; and the two-sample release after it. -/
theorem C8_button_event_delivery_witness :
    ((consumeEvent (consumeEvent
        ⟨false, false, true, 0, 0, false, ButtonEvent.shortPress⟩).2).1 = ButtonEvent.none) ∧
    ((runButton ⟨false, false, true, 0, 0, false, ButtonEvent.none⟩
        ([100, 4000, 10000].map fun t => (false, t))).2 = [ButtonEvent.longPress]) ∧
    (processButtonE ⟨false, false, true, 0, 0, true, ButtonEvent.none⟩ true 5000 =
        (⟨true, false, true, 5000, 0, true, ButtonEvent.none⟩, Option.none) ∧
     processButtonE ⟨true, false, true, 5000, 0, true, ButtonEvent.none⟩ true 6000 =
        (⟨true, true, false, 5000, 0, true, ButtonEvent.none⟩, Option.none)) :=
  ⟨C8_button_event_delivery.1 ⟨false, false, true, 0, 0, false, ButtonEvent.shortPress⟩,
   (C8_button_event_delivery.2.1 ⟨false, false, true, 0, 0, false, ButtonEvent.none⟩
      [100, 4000, 10000] rfl rfl rfl rfl).trans (by decide),
   C8_button_event_delivery.2.2 ⟨false, false, true, 0, 0, true, ButtonEvent.none⟩
      5000 6000 rfl rfl rfl rfl (by decide)⟩

/-! Sorting (`DoseManager::sortDoses`): an in-place bubble sort on the active
dose array, followed by identifier reassignment.  The inner loop of the C++
code, for outer iteration `i`, performs `doseCount - i - 1` adjacent
compare-and-swap steps from the left; `tpass l m` is that truncated pass with
`m` compare steps, and `sortPasses l k` runs passes with `m = k, k-1, ..., 1`
exactly as the nested loops do. -/

/-- One truncated bubble pass: `m` adjacent compare-and-swap steps from the
left, swapping when the earlier dose has the larger minute-of-day. -/
def tpass : List Dose → Nat → List Dose
  | d1 :: d2 :: rest, m + 1 =>
      if timeToMinutes d1.time > timeToMinutes d2.time then
        d2 :: tpass (d1 :: rest) m
      else
        d1 :: tpass (d2 :: rest) m
  | l, _ => l

/-- The outer loop of `DoseManager::sortDoses`: passes of decreasing length
(`sortPasses l (n-1)` performs the passes for `i = 0, ..., n-2`). -/
def sortPasses : List Dose → Nat → List Dose
  | l, 0 => l
  | l, k + 1 => sortPasses (tpass l (k + 1)) k

/-- `DoseManager::sortDoses`: bubble sort over the active array, then
`doses[i].id = i` for every position. -/
def sortDoses (l : List Dose) : List Dose :=
  reassignIdsAux (sortPasses l (l.length - 1)) 0

theorem tpass_zero (l : List Dose) : tpass l 0 = l := by
  match l with
  | [] => rfl
  | [a] => rfl
  | a :: b :: rest => rfl

theorem tpass_nil (m : Nat) : tpass [] m = [] := by
  cases m <;> rfl

theorem tpass_single (m : Nat) (a : Dose) : tpass [a] m = [a] := by
  cases m <;> rfl

theorem tpass_perm : ∀ (m : Nat) (l : List Dose), (tpass l m).Perm l := by
  intro m
  induction m with
  | zero => intro l; rw [tpass_zero]
  | succ m ih =>
      intro l
      match l with
      | [] => rw [tpass_nil]
      | [a] => rw [tpass_single]
      | a :: b :: rest =>
          simp only [tpass]
          split_ifs with h
          · exact ((ih (a :: rest)).cons b).trans (List.Perm.swap a b rest)
          · exact (ih (b :: rest)).cons a

theorem tpass_length (m : Nat) (l : List Dose) :
    (tpass l m).length = l.length :=
  (tpass_perm m l).length_eq

theorem tpass_drop : ∀ (m : Nat) (l : List Dose),
    (tpass l m).drop (m + 1) = l.drop (m + 1) := by
  intro m
  induction m with
  | zero => intro l; rw [tpass_zero]
  | succ m ih =>
      intro l
      match l with
      | [] => rw [tpass_nil]
      | [a] => rw [tpass_single]
      | a :: b :: rest =>
          simp only [tpass]
          split_ifs with h
          · rw [List.drop_succ_cons, ih (a :: rest), List.drop_succ_cons,
              List.drop_succ_cons, List.drop_succ_cons]
          · rw [List.drop_succ_cons, ih (b :: rest), List.drop_succ_cons,
              List.drop_succ_cons, List.drop_succ_cons]

theorem tpass_take_perm : ∀ (m : Nat) (l : List Dose),
    ((tpass l m).take (m + 1)).Perm (l.take (m + 1)) := by
  intro m
  induction m with
  | zero => intro l; rw [tpass_zero]
  | succ m ih =>
      intro l
      match l with
      | [] => rw [tpass_nil]
      | [a] => rw [tpass_single]
      | a :: b :: rest =>
          simp only [tpass]
          split_ifs with h
          · rw [List.take_succ_cons, List.take_succ_cons, List.take_succ_cons]
            exact ((ih (a :: rest)).cons b).trans
              (by rw [List.take_succ_cons]; exact List.Perm.swap a b (rest.take m))
          · rw [List.take_succ_cons, List.take_succ_cons, List.take_succ_cons]
            have hp := (ih (b :: rest)).cons a
            rwa [List.take_succ_cons] at hp

theorem tpass_max : ∀ (m : Nat) (l : List Dose) (y : Dose),
    (tpass l m)[m]? = some y →
    ∀ x ∈ (tpass l m).take m, timeToMinutes x.time ≤ timeToMinutes y.time := by
  intro m
  induction m with
  | zero => intro l y _ x hx; simp at hx
  | succ m ih =>
      intro l y hy x hx
      match l with
      | [] => rw [tpass_nil] at hy; simp at hy
      | [a] => rw [tpass_single] at hy; simp at hy
      | a :: b :: rest =>
          simp only [tpass] at hy hx
          split_ifs at hy hx with h
          · rw [List.getElem?_cons_succ] at hy
            rw [List.take_succ_cons] at hx
            have hmem : a ∈ (tpass (a :: rest) m).take (m + 1) := by
              refine (tpass_take_perm m (a :: rest)).mem_iff.mpr ?_
              rw [List.take_succ_cons]
              exact List.mem_cons_self a _
            rw [List.take_succ, hy] at hmem
            rcases List.mem_cons.mp hx with rfl | hx'
            · rcases List.mem_append.mp hmem with ha | ha
              · exact le_of_lt (lt_of_lt_of_le h (ih (a :: rest) y hy a ha))
              · have : a = y := by simpa using ha
                subst this
                exact le_of_lt h
            · exact ih (a :: rest) y hy x hx'
          · rw [List.getElem?_cons_succ] at hy
            rw [List.take_succ_cons] at hx
            have hmem : b ∈ (tpass (b :: rest) m).take (m + 1) := by
              refine (tpass_take_perm m (b :: rest)).mem_iff.mpr ?_
              rw [List.take_succ_cons]
              exact List.mem_cons_self b _
            rw [List.take_succ, hy] at hmem
            rcases List.mem_cons.mp hx with rfl | hx'
            · have hab : timeToMinutes x.time ≤ timeToMinutes b.time := le_of_not_lt h
              rcases List.mem_append.mp hmem with hb | hb
              · exact le_trans hab (ih (b :: rest) y hy b hb)
              · have : b = y := by simpa using hb
                subst this
                exact hab
            · exact ih (b :: rest) y hy x hx'

theorem sortPasses_perm : ∀ (k : Nat) (l : List Dose), (sortPasses l k).Perm l := by
  intro k
  induction k with
  | zero => intro l; exact List.Perm.refl l
  | succ k ih =>
      intro l
      exact (ih (tpass l (k + 1))).trans (tpass_perm (k + 1) l)

theorem sortPasses_sorted : ∀ (k : Nat) (l : List Dose),
    (l.drop (k + 1)).Pairwise (fun a b => timeToMinutes a.time ≤ timeToMinutes b.time) →
    (∀ x ∈ l.take (k + 1), ∀ y ∈ l.drop (k + 1),
      timeToMinutes x.time ≤ timeToMinutes y.time) →
    (sortPasses l k).Pairwise (fun a b => timeToMinutes a.time ≤ timeToMinutes b.time) := by
  intro k
  induction k with
  | zero =>
      intro l h1 h2
      match l with
      | [] => exact List.Pairwise.nil
      | a :: rest =>
          refine List.pairwise_cons.mpr ⟨?_, ?_⟩
          · intro y hy
            exact h2 a (by simp) y (by simpa using hy)
          · simpa using h1
  | succ k ih =>
      intro l h1 h2
      show (sortPasses (tpass l (k + 1)) k).Pairwise _
      have hdrop : (tpass l (k + 1)).drop (k + 2) = l.drop (k + 2) := tpass_drop (k + 1) l
      have htake : ((tpass l (k + 1)).take (k + 2)).Perm (l.take (k + 2)) :=
        tpass_take_perm (k + 1) l
      by_cases hlen : k + 1 < (tpass l (k + 1)).length
      · have hy : (tpass l (k + 1))[k + 1]? =
            some ((tpass l (k + 1)).get ⟨k + 1, hlen⟩) :=
          List.getElem?_eq_getElem hlen
        have hsplit : (tpass l (k + 1)).drop (k + 1) =
            (tpass l (k + 1)).get ⟨k + 1, hlen⟩ :: (tpass l (k + 1)).drop (k + 2) :=
          List.drop_eq_getElem_cons hlen
        have hytake : (tpass l (k + 1)).get ⟨k + 1, hlen⟩ ∈ l.take (k + 2) := by
          refine htake.mem_iff.mp ?_
          rw [List.take_succ, hy]
          exact List.mem_append.mpr (Or.inr (by simp))
        refine ih (tpass l (k + 1)) ?_ ?_
        · rw [hsplit]
          refine List.pairwise_cons.mpr ⟨?_, ?_⟩
          · intro z hz
            rw [hdrop] at hz
            exact h2 _ hytake z hz
          · rw [hdrop]; exact h1
        · intro x hx z hz
          rw [hsplit] at hz
          rcases List.mem_cons.mp hz with rfl | hz'
          · exact tpass_max (k + 1) l _ hy x hx
          · rw [hdrop] at hz'
            have hx2 : x ∈ l.take (k + 2) := by
              refine htake.mem_iff.mp ?_
              rw [List.take_succ]
              exact List.mem_append.mpr (Or.inl hx)
            exact h2 x hx2 z hz'
      · have hdropnil : (tpass l (k + 1)).drop (k + 1) = [] :=
          List.drop_eq_nil_of_le (by omega)
        refine ih (tpass l (k + 1)) ?_ ?_
        · rw [hdropnil]; exact List.Pairwise.nil
        · intro x hx z hz
          rw [hdropnil] at hz
          cases hz

/-! Identifier reassignment and the derived properties of `sortDoses`. -/

theorem reassignIdsAux_getElem? :
    ∀ (l : List Dose) (n i : Nat),
      (reassignIdsAux l n)[i]? = (l[i]?).map fun d => { d with id := n + i } := by
  intro l
  induction l with
  | nil => intro n i; simp [reassignIdsAux]
  | cons d rest ih =>
      intro n i
      match i with
      | 0 => simp [reassignIdsAux]
      | i + 1 =>
          simp only [reassignIdsAux, List.getElem?_cons_succ, ih (n + 1) i]
          have harith : n + 1 + i = n + (i + 1) := by omega
          simp only [harith]

theorem reassignIdsAux_mem_rev :
    ∀ (l : List Dose) (n : Nat) (y : Dose), y ∈ reassignIdsAux l n →
      ∃ d ∈ l, y.time = d.time ∧ y.enabled = d.enabled ∧ y.taken = d.taken := by
  intro l
  induction l with
  | nil => intro n y hy; cases hy
  | cons d rest ih =>
      intro n y hy
      rcases List.mem_cons.mp hy with rfl | hy'
      · exact ⟨d, List.mem_cons_self d rest, rfl, rfl, rfl⟩
      · obtain ⟨e, he, h1, h2, h3⟩ := ih (n + 1) y hy'
        exact ⟨e, List.mem_cons_of_mem d he, h1, h2, h3⟩

theorem reassignIdsAux_mem_fwd :
    ∀ (l : List Dose) (n : Nat) (d : Dose), d ∈ l →
      ∃ ix, ({ d with id := ix } : Dose) ∈ reassignIdsAux l n := by
  intro l
  induction l with
  | nil => intro n d hd; cases hd
  | cons e rest ih =>
      intro n d hd
      rcases List.mem_cons.mp hd with rfl | hd'
      · exact ⟨n, List.mem_cons_self _ _⟩
      · obtain ⟨ix, hix⟩ := ih (n + 1) d hd'
        exact ⟨ix, List.mem_cons_of_mem _ hix⟩

theorem reassignIdsAux_pairwise (P : Time12H → Time12H → Prop) :
    ∀ (l : List Dose) (n : Nat),
      l.Pairwise (fun a b => P a.time b.time) →
      (reassignIdsAux l n).Pairwise (fun a b => P a.time b.time) := by
  intro l
  induction l with
  | nil => intro n _; exact List.Pairwise.nil
  | cons d rest ih =>
      intro n h
      obtain ⟨hhead, htail⟩ := List.pairwise_cons.mp h
      refine List.pairwise_cons.mpr ⟨?_, ih (n + 1) htail⟩
      intro y hy
      obtain ⟨e, he, h1, _, _⟩ := reassignIdsAux_mem_rev rest (n + 1) y hy
      show P ({ d with id := n } : Dose).time y.time
      rw [h1]
      exact hhead e he

theorem sortDoses_sorted (l : List Dose) :
    (sortDoses l).Pairwise (fun a b => timeToMinutes a.time ≤ timeToMinutes b.time) := by
  apply reassignIdsAux_pairwise (fun t u => timeToMinutes t ≤ timeToMinutes u)
  apply sortPasses_sorted
  · rw [List.drop_eq_nil_of_le (by omega)]
    exact List.Pairwise.nil
  · intro x _ y hy
    rw [List.drop_eq_nil_of_le (by omega)] at hy
    cases hy

theorem sortDoses_getElem?_id (l : List Dose) (i : Nat) (d : Dose)
    (h : (sortDoses l)[i]? = some d) : d.id = i := by
  rw [sortDoses, reassignIdsAux_getElem?] at h
  cases hx : (sortPasses l (l.length - 1))[i]? with
  | none => rw [hx] at h; simp at h
  | some e =>
      rw [hx] at h
      simp only [Option.map_some'] at h
      rw [← Option.some.inj h]
      simp

theorem sortDoses_mem_fwd (l : List Dose) (d : Dose) (hd : d ∈ l) :
    ∃ e ∈ sortDoses l, e.time = d.time ∧ e.enabled = d.enabled ∧ e.taken = d.taken := by
  have hp : d ∈ sortPasses l (l.length - 1) :=
    (sortPasses_perm (l.length - 1) l).mem_iff.mpr hd
  obtain ⟨ix, hix⟩ := reassignIdsAux_mem_fwd (sortPasses l (l.length - 1)) 0 d hp
  exact ⟨{ d with id := ix }, hix, rfl, rfl, rfl⟩

theorem sortDoses_mem_rev (l : List Dose) (y : Dose) (hy : y ∈ sortDoses l) :
    ∃ d ∈ l, y.time = d.time ∧ y.enabled = d.enabled ∧ y.taken = d.taken := by
  obtain ⟨e, he, h1, h2, h3⟩ :=
    reassignIdsAux_mem_rev (sortPasses l (l.length - 1)) 0 y hy
  exact ⟨e, (sortPasses_perm (l.length - 1) l).mem_iff.mp he, h1, h2, h3⟩

theorem sortDoses_pairwise_symm (P : Time12H → Time12H → Prop)
    (hsym : ∀ {t u : Time12H}, P t u → P u t) (l : List Dose)
    (h : l.Pairwise (fun a b => P a.time b.time)) :
    (sortDoses l).Pairwise (fun a b => P a.time b.time) := by
  apply reassignIdsAux_pairwise
  exact ((sortPasses_perm (l.length - 1) l).pairwise_iff fun ha => hsym ha).mpr h

/-! Minimum-spacing check (`DoseManager::isTimeSlotAvailable`). -/

/-- Distance computation of the `isTimeSlotAvailable` loop body: absolute
minute difference, folded across midnight when it exceeds half a day. -/
def slotDiff (newMinutes existingMinutes : Nat) : Nat :=
  if 12 * 60 < ((newMinutes : Int) - (existingMinutes : Int)).natAbs then
    24 * 60 - ((newMinutes : Int) - (existingMinutes : Int)).natAbs
  else ((newMinutes : Int) - (existingMinutes : Int)).natAbs

/-- Scan loop of `DoseManager::isTimeSlotAvailable`, with `i` the absolute
index of the head of the remaining list: skips `excludeIndex`, rejects when a
dose is closer than MIN_DOSE_SPACING. -/
def slotFreeAux (newMinutes : Nat) (excludeIndex : Int) : List Dose → Nat → Bool
  | [], _ => true
  | d :: rest, i =>
      if (i : Int) = excludeIndex then slotFreeAux newMinutes excludeIndex rest (i + 1)
      else if slotDiff newMinutes (timeToMinutes d.time) < MIN_DOSE_SPACING then false
      else slotFreeAux newMinutes excludeIndex rest (i + 1)

/-- `DoseManager::isTimeSlotAvailable` (with `excludeIndex = -1` meaning no
exclusion, as in the C++ default argument). -/
def isTimeSlotAvailable (doses : List Dose) (time : Time12H) (excludeIndex : Int) : Bool :=
  slotFreeAux (timeToMinutes time) excludeIndex doses 0

theorem slotFreeAux_true_iff (nm : Nat) (ex : Int) :
    ∀ (l : List Dose) (i : Nat),
      slotFreeAux nm ex l i = true ↔
      ∀ (j : Nat) (d : Dose), l[j]? = some d → ((i + j : Nat) : Int) ≠ ex →
        MIN_DOSE_SPACING ≤ slotDiff nm (timeToMinutes d.time) := by
  intro l
  induction l with
  | nil =>
      intro i
      constructor
      · intro _ j d hj _
        rw [List.getElem?_nil] at hj
        exact Option.noConfusion hj
      · intro _; rfl
  | cons d rest ih =>
      intro i
      simp only [slotFreeAux]
      split_ifs with hex hlt
      · rw [ih (i + 1)]
        constructor
        · intro h j e hj hne
          match j with
          | 0 =>
              exfalso
              apply hne
              rw [Nat.add_zero]
              exact hex
          | j + 1 =>
              refine h j e (by simpa using hj) ?_
              push_cast at hne ⊢
              omega
        · intro h j e hj hne
          refine h (j + 1) e (by simpa using hj) ?_
          push_cast at hne ⊢
          omega
      · constructor
        · intro hfalse; exact absurd hfalse (by simp)
        · intro h
          have := h 0 d (by simp) (by rw [Nat.add_zero]; exact hex)
          omega
      · rw [ih (i + 1)]
        constructor
        · intro h j e hj hne
          match j with
          | 0 =>
              have he : e = d := by simpa using hj.symm
              subst he
              omega
          | j + 1 =>
              refine h j e (by simpa using hj) ?_
              push_cast at hne ⊢
              omega
        · intro h j e hj hne
          refine h (j + 1) e (by simpa using hj) ?_
          push_cast at hne ⊢
          omega

theorem isTimeSlotAvailable_true_iff (doses : List Dose) (t : Time12H) (ex : Int) :
    isTimeSlotAvailable doses t ex = true ↔
    ∀ (j : Nat) (d : Dose), doses[j]? = some d → (j : Int) ≠ ex →
      MIN_DOSE_SPACING ≤ slotDiff (timeToMinutes t) (timeToMinutes d.time) := by
  rw [isTimeSlotAvailable, slotFreeAux_true_iff]
  constructor
  · intro h j d hj hne
    exact h j d hj (by simpa using hne)
  · intro h j d hj hne
    exact h j d hj (by simpa using hne)

theorem slotDiff_eq_min (a b : Nat) (ha : a < 1440) (hb : b < 1440) :
    slotDiff a b =
      min (((a : Int) - b).natAbs) (1440 - ((a : Int) - b).natAbs) := by
  rw [slotDiff, Nat.min_def]
  split_ifs <;> omega

/-! `DoseManager::addDose` and `DoseManager::updateDose`. -/

/-- Time-field assignment `doses[index].time = time` of `updateDose`. -/
def setDoseTime (doses : List Dose) (index : Nat) (t : Time12H) : List Dose :=
  if h : index < doses.length then
    doses.set index { doses.get ⟨index, h⟩ with time := t }
  else doses

/-- `DoseManager::addDose`: rejects at capacity, on an invalid time, or on a
spacing conflict with any existing dose; on success appends the enabled,
untaken dose and re-sorts (which reassigns all identifiers). -/
def addDose (doses : List Dose) (time : Time12H) : Bool × List Dose :=
  if MAX_DOSES ≤ doses.length then (false, doses)
  else if !(isValidTime time) then (false, doses)
  else if !(isTimeSlotAvailable doses time (-1)) then (false, doses)
  else
    (true, sortDoses (doses ++
      [{ time := time, enabled := true, taken := false, id := doses.length }]))

/-- `DoseManager::updateDose`: same validation as `addDose`, excluding the
edited entry itself from the spacing check, then re-sorts. -/
def updateDose (doses : List Dose) (index : Nat) (time : Time12H) : Bool × List Dose :=
  if doses.length ≤ index then (false, doses)
  else if !(isValidTime time) then (false, doses)
  else if !(isTimeSlotAvailable doses time (index : Int)) then (false, doses)
  else (true, sortDoses (setDoseTime doses index time))

/-- Claim C2: `addDose` returns false and leaves the sequence unchanged
whenever the count is at MAX_DOSES, or the hour/minute range check fails, or
the time is within the minimum spacing (circular minute-of-day distance
`min(|a-b|, 1440-|a-b|)` below MIN_DOSE_SPACING) of an existing entry; when
it returns true, the resulting sequence contains the new entry (enabled, not
taken), is sorted by minute-of-day ascending, and the id of the entry at each
position i equals i. -/
theorem C2_addDose_contract (doses : List Dose) (t : Time12H) :
    ((MAX_DOSES ≤ doses.length ∨ isValidTime t = false) →
      addDose doses t = (false, doses)) ∧
    ((∀ d ∈ doses, isValidTime d.time = true) →
      (∃ d ∈ doses,
        min (((timeToMinutes t : Int) - timeToMinutes d.time).natAbs)
          (1440 - ((timeToMinutes t : Int) - timeToMinutes d.time).natAbs) <
        MIN_DOSE_SPACING) →
      addDose doses t = (false, doses)) ∧
    (∀ l' : List Dose, addDose doses t = (true, l') →
      (∃ e ∈ l', e.time = t ∧ e.enabled = true ∧ e.taken = false) ∧
      l'.Pairwise (fun a b => timeToMinutes a.time ≤ timeToMinutes b.time) ∧
      (∀ (i : Nat) (d : Dose), l'[i]? = some d → d.id = i)) := by
  refine ⟨?_, ?_, ?_⟩
  · rintro (hcap | hval)
    · rw [addDose, if_pos hcap]
    · rw [addDose]
      split_ifs with h1 h2 h3
      · rfl
      · rfl
      · rfl
      · exfalso
        rw [hval] at h2
        exact h2 rfl
  · intro hwf ⟨d, hd, hclose⟩
    rw [addDose]
    split_ifs with h1 h2 h3
    · rfl
    · rfl
    · rfl
    · exfalso
      obtain ⟨j, hjlt, hje⟩ := List.getElem_of_mem hd
      have havail : isTimeSlotAvailable doses t (-1) = true := by
        revert h3
        cases isTimeSlotAvailable doses t (-1) <;> simp
      have hvt : isValidTime t = true := by
        revert h2
        cases isValidTime t <;> simp
      have hge := (isTimeSlotAvailable_true_iff doses t (-1)).mp havail j d
        (by rw [List.getElem?_eq_getElem hjlt, hje]) (by omega)
      rw [slotDiff_eq_min _ _ (timeToMinutes_lt t hvt)
        (timeToMinutes_lt d.time (hwf d hd))] at hge
      omega
  · intro l' h
    rw [addDose] at h
    split_ifs at h with h1 h2 h3
    · exact absurd h (by simp)
    · exact absurd h (by simp)
    · exact absurd h (by simp)
    · have hl' : l' = sortDoses (doses ++
          [{ time := t, enabled := true, taken := false, id := doses.length }]) :=
        (congrArg Prod.snd h).symm
      subst hl'
      refine ⟨?_, sortDoses_sorted _, fun i d hd => sortDoses_getElem?_id _ i d hd⟩
      obtain ⟨e, he, h1', h2', h3'⟩ := sortDoses_mem_fwd
        (doses ++ [{ time := t, enabled := true, taken := false, id := doses.length }])
        { time := t, enabled := true, taken := false, id := doses.length }
        (List.mem_append.mpr (Or.inr (List.mem_cons_self _ _)))
      exact ⟨e, he, h1', h2', h3'⟩

/-- Witness for C2 at concrete inputs: an invalid hour is rejected; 8:10 AM is
rejected next to an existing 8:00 AM dose; adding 12:00 PM succeeds with a
sorted, re-identified sequence. -/
theorem C2_addDose_contract_witness :
    (addDose [⟨⟨8, 0, false⟩, true, false, 0⟩] ⟨13, 0, false⟩ =
      (false, [⟨⟨8, 0, false⟩, true, false, 0⟩])) ∧
    (addDose [⟨⟨8, 0, false⟩, true, false, 0⟩] ⟨8, 10, false⟩ =
      (false, [⟨⟨8, 0, false⟩, true, false, 0⟩])) ∧
    ((∃ e ∈ (addDose [⟨⟨8, 0, false⟩, true, false, 0⟩] ⟨12, 0, true⟩).2,
        e.time = ⟨12, 0, true⟩ ∧ e.enabled = true ∧ e.taken = false) ∧
     (addDose [⟨⟨8, 0, false⟩, true, false, 0⟩] ⟨12, 0, true⟩).2.Pairwise
        (fun a b => timeToMinutes a.time ≤ timeToMinutes b.time) ∧
     (∀ (i : Nat) (d : Dose),
        (addDose [⟨⟨8, 0, false⟩, true, false, 0⟩] ⟨12, 0, true⟩).2[i]? = some d →
        d.id = i)) :=
  ⟨(C2_addDose_contract [⟨⟨8, 0, false⟩, true, false, 0⟩] ⟨13, 0, false⟩).1
      (Or.inr (by decide)),
   (C2_addDose_contract [⟨⟨8, 0, false⟩, true, false, 0⟩] ⟨8, 10, false⟩).2.1
      (by decide) ⟨⟨⟨8, 0, false⟩, true, false, 0⟩, by decide, by decide⟩,
   (C2_addDose_contract [⟨⟨8, 0, false⟩, true, false, 0⟩] ⟨12, 0, true⟩).2.2
      (addDose [⟨⟨8, 0, false⟩, true, false, 0⟩] ⟨12, 0, true⟩).2 (by decide)⟩

/-! Reachable dose-manager states and the minimum-spacing invariant. -/

/-- The circular minute-of-day distance of the specification: the shorter way
around a 24-hour wheel between two times-of-day, at least MIN_DOSE_SPACING. -/
def spacedTimes (t u : Time12H) : Prop :=
  MIN_DOSE_SPACING ≤
    min (((timeToMinutes t : Int) - timeToMinutes u).natAbs)
      (1440 - ((timeToMinutes t : Int) - timeToMinutes u).natAbs)

theorem spacedTimes_symm {t u : Time12H} (h : spacedTimes t u) : spacedTimes u t := by
  unfold spacedTimes at h ⊢
  omega

/-- Dose sequences reachable through `addDose` and `updateDose` from the empty
sequence of `DoseManager::begin`. -/
inductive DMReach : List Dose → Prop
  | init : DMReach []
  | add {l : List Dose} {t : Time12H} {l' : List Dose} :
      DMReach l → addDose l t = (true, l') → DMReach l'
  | update {l : List Dose} {i : Nat} {t : Time12H} {l' : List Dose} :
      DMReach l → updateDose l i t = (true, l') → DMReach l'

/-- All dose times in the sequence pass `isValidTime`. -/
def DosesWF (l : List Dose) : Prop := ∀ d ∈ l, isValidTime d.time = true

theorem slotDiff_spaced {t : Time12H} {d : Dose}
    (hvt : isValidTime t = true) (hvd : isValidTime d.time = true)
    (hge : MIN_DOSE_SPACING ≤ slotDiff (timeToMinutes t) (timeToMinutes d.time)) :
    spacedTimes t d.time := by
  rw [spacedTimes, ← slotDiff_eq_min _ _ (timeToMinutes_lt t hvt)
    (timeToMinutes_lt d.time hvd)]
  exact hge

theorem DMReach_inv : ∀ {l : List Dose}, DMReach l →
    DosesWF l ∧ l.Pairwise (fun a b => spacedTimes a.time b.time) := by
  intro l h
  induction h with
  | init => exact ⟨fun d hd => absurd hd (List.not_mem_nil d), List.Pairwise.nil⟩
  | @add l t l' hr heq ih =>
      rw [addDose] at heq
      split_ifs at heq with h1 h2 h3
      · exact absurd heq (by simp)
      · exact absurd heq (by simp)
      · exact absurd heq (by simp)
      · have hvt : isValidTime t = true := by
          revert h2; cases isValidTime t <;> simp
        have havail : isTimeSlotAvailable l t (-1) = true := by
          revert h3; cases isTimeSlotAvailable l t (-1) <;> simp
        have hchar := (isTimeSlotAvailable_true_iff l t (-1)).mp havail
        have hl' : l' = sortDoses (l ++
            [{ time := t, enabled := true, taken := false, id := l.length }]) :=
          (congrArg Prod.snd heq).symm
        subst hl'
        constructor
        · intro y hy
          obtain ⟨d, hd, hty, _, _⟩ := sortDoses_mem_rev _ y hy
          rcases List.mem_append.mp hd with hd' | hd'
          · rw [hty]; exact ih.1 d hd'
          · have : d = { time := t, enabled := true, taken := false, id := l.length } := by
              simpa using hd'
            subst this
            rw [hty]
            exact hvt
        · apply sortDoses_pairwise_symm spacedTimes (fun ha => spacedTimes_symm ha)
          rw [List.pairwise_append]
          refine ⟨ih.2, List.pairwise_singleton .., ?_⟩
          intro x hx y hy
          have hy' : y = { time := t, enabled := true, taken := false, id := l.length } := by
            simpa using hy
          subst hy'
          obtain ⟨j, hjlt, hje⟩ := List.getElem_of_mem hx
          have hge := hchar j x (by rw [List.getElem?_eq_getElem hjlt, hje]) (by omega)
          exact spacedTimes_symm (slotDiff_spaced hvt (ih.1 x hx) hge)
  | @update l i t l' hr heq ih =>
      rw [updateDose] at heq
      split_ifs at heq with h1 h2 h3
      · exact absurd heq (by simp)
      · exact absurd heq (by simp)
      · exact absurd heq (by simp)
      · have hvt : isValidTime t = true := by
          revert h2; cases isValidTime t <;> simp
        have havail : isTimeSlotAvailable l t (i : Int) = true := by
          revert h3; cases isTimeSlotAvailable l t (i : Int) <;> simp
        have hchar := (isTimeSlotAvailable_true_iff l t (i : Int)).mp havail
        have hilt : i < l.length := by omega
        have hset : setDoseTime l i t = l.set i { l.get ⟨i, hilt⟩ with time := t } := by
          rw [setDoseTime, dif_pos hilt]
        have hl' : l' = sortDoses (setDoseTime l i t) := (congrArg Prod.snd heq).symm
        subst hl'
        have hwfset : DosesWF (setDoseTime l i t) := by
          intro y hy
          rw [hset] at hy
          rcases List.mem_or_eq_of_mem_set hy with hy' | hy'
          · exact ih.1 y hy'
          · rw [hy']; exact hvt
        constructor
        · intro y hy
          obtain ⟨d, hd, hty, _, _⟩ := sortDoses_mem_rev _ y hy
          rw [hty]
          exact hwfset d hd
        · apply sortDoses_pairwise_symm spacedTimes (fun ha => spacedTimes_symm ha)
          rw [List.pairwise_iff_getElem]
          intro p q hp hq hpq
          simp only [hset, List.length_set] at hp hq ⊢
          rw [List.getElem_set, List.getElem_set]
          have hpair := List.pairwise_iff_getElem.mp ih.2
          split_ifs with hip hiq hiq
          · omega
          · -- modified element at p vs original at q
            have hge := hchar q l[q] (List.getElem?_eq_getElem hq) (by omega)
            exact slotDiff_spaced hvt (ih.1 l[q] (List.getElem_mem hq)) hge
          · -- original at p vs modified element at q
            have hge := hchar p l[p] (List.getElem?_eq_getElem hp) (by omega)
            exact spacedTimes_symm (slotDiff_spaced hvt (ih.1 l[p] (List.getElem_mem hp)) hge)
          · exact hpair p q hp hq hpq

/-- Claim C3: every dose sequence reachable through `addDose` and `updateDose`
keeps every pair of distinct doses at circular minute-of-day distance
`min(|a-b|, 1440-|a-b|)` of at least MIN_DOSE_SPACING (= 15); concretely,
starting from an empty sequence the adds at 8:00 AM, 12:00 PM and 6:00 PM all
succeed and a subsequent add of 8:10 AM returns false. -/
theorem C3_min_spacing_invariant :
    (∀ l : List Dose, DMReach l →
      l.Pairwise (fun a b => spacedTimes a.time b.time)) ∧
    (addDose [] ⟨8, 0, false⟩ = (true, [⟨⟨8, 0, false⟩, true, false, 0⟩]) ∧
     addDose [⟨⟨8, 0, false⟩, true, false, 0⟩] ⟨12, 0, true⟩ =
       (true, [⟨⟨8, 0, false⟩, true, false, 0⟩, ⟨⟨12, 0, true⟩, true, false, 1⟩]) ∧
     addDose [⟨⟨8, 0, false⟩, true, false, 0⟩, ⟨⟨12, 0, true⟩, true, false, 1⟩]
         ⟨6, 0, true⟩ =
       (true, [⟨⟨8, 0, false⟩, true, false, 0⟩, ⟨⟨12, 0, true⟩, true, false, 1⟩,
               ⟨⟨6, 0, true⟩, true, false, 2⟩]) ∧
     addDose [⟨⟨8, 0, false⟩, true, false, 0⟩, ⟨⟨12, 0, true⟩, true, false, 1⟩,
              ⟨⟨6, 0, true⟩, true, false, 2⟩] ⟨8, 10, false⟩ =
       (false, [⟨⟨8, 0, false⟩, true, false, 0⟩, ⟨⟨12, 0, true⟩, true, false, 1⟩,
                ⟨⟨6, 0, true⟩, true, false, 2⟩])) :=
  ⟨fun _ h => (DMReach_inv h).2, by decide, by decide, by decide, by decide⟩

/-- Witness for C3 at a concrete input: the invariant instantiated on the
reachable two-dose sequence built by two successful adds. -/
theorem C3_min_spacing_invariant_witness :
    ([⟨⟨8, 0, false⟩, true, false, 0⟩, ⟨⟨12, 0, true⟩, true, false, 1⟩] :
      List Dose).Pairwise (fun a b => spacedTimes a.time b.time) :=
  C3_min_spacing_invariant.1
    [⟨⟨8, 0, false⟩, true, false, 0⟩, ⟨⟨12, 0, true⟩, true, false, 1⟩]
    (@DMReach.add [⟨⟨8, 0, false⟩, true, false, 0⟩] ⟨12, 0, true⟩
      [⟨⟨8, 0, false⟩, true, false, 0⟩, ⟨⟨12, 0, true⟩, true, false, 1⟩]
      (@DMReach.add [] ⟨8, 0, false⟩ [⟨⟨8, 0, false⟩, true, false, 0⟩]
        DMReach.init (by decide))
      (by decide))

/-! Lid sensor (`LidSensor`) and the top-level coordination loop of
`main.cpp`.  The display, buttons and storage collaborators appear as inputs
(`screenOn`, `anyBtnPressed`, `uiTimeout`) and the per-state menu handlers of
the `switch` as an explicit handler function. -/

/-- LID_DEBOUNCE_DURATION from `config.h` (ms). -/
def LID_DEBOUNCE_DURATION : Nat := 500

/-- TIME_CHECK_INTERVAL from `config.h` (ms). -/
def TIME_CHECK_INTERVAL : Nat := 1000

/-- State fields of `LidSensor` (raw levels as `Bool`, `true` = HIGH = lid
open, since the reed switch reads HIGH with no magnet present). -/
structure LidState where
  lidOpen : Bool
  lastState : Bool
  currentReading : Bool
  justOpenedFlag : Bool
  justClosedFlag : Bool
  sensorWorking : Bool
  lastDebounceTime : Nat
  stateChangeTime : Nat
  lastOpenTime : Nat
  openingsToday : Nat
deriving DecidableEq, Repr, Inhabited

/-- `LidSensor::update`: clears the one-shot edge flags, tracks the raw
reading, and accepts a new open/closed state only after both the short
debounce window and the longer vibration-rejection window have passed. -/
def lidUpdate (s : LidState) (reading : Bool) (now : Nat) : LidState :=
  let s := { s with justOpenedFlag := false, justClosedFlag := false }
  let s := if reading ≠ s.currentReading then
      { s with currentReading := reading, lastDebounceTime := now, stateChangeTime := now }
    else s
  if now - s.lastDebounceTime > DEBOUNCE_DELAY then
    if now - s.stateChangeTime ≥ LID_DEBOUNCE_DURATION then
      let newState := s.currentReading == true
      if newState ≠ s.lidOpen then
        if newState then
          { s with lidOpen := newState, justOpenedFlag := true, lastOpenTime := now,
                   openingsToday := s.openingsToday + 1 }
        else { s with lidOpen := newState, justClosedFlag := true }
      else s
    else s
  else s

/-- `LidSensor::justOpened`: one-shot edge read, clearing the flag. -/
def lidJustOpened (s : LidState) : Bool × LidState :=
  if s.justOpenedFlag then (true, { s with justOpenedFlag := false }) else (false, s)

/-- Menu state enumeration (`MenuState` in `config.h`). -/
inductive MenuState
  | home
  | main
  | editDoses
  | addDose
  | editDose
  | deleteDose
  | editTime
  | editDate
  | alarmToggle
  | wifiToggle
  | alert
deriving DecidableEq, Repr, Inhabited

/-- The coordinator state: the `SystemState` fields the loop logic reads and
writes, together with the component states it owns (`doseCount`/`doses` as a
list, the alarm engine, the lid sensor) and the loop's timing variable. -/
structure Sys where
  alarmEnabled : Bool
  muteMode : Bool
  alarmActive : Bool
  snoozeActive : Bool
  activeDoseIndex : Int
  currentMenu : MenuState
  currentDay : Nat
  doses : List Dose
  alarm : AlarmState
  lid : LidState
  lastTimeCheck : Nat
  lastActivity : Nat
deriving DecidableEq, Repr, Inhabited

/-- `checkDoseTime()` in `main.cpp`: skipped while alarming is disabled or
muted, or while an alert or snooze is in progress; otherwise a scheduler match
activates the alert state and starts the alarm. -/
def checkDoseTimeStep (s : Sys) (currentTime : Time12H) (now : Nat) : Sys :=
  if !s.alarmEnabled || s.muteMode then s
  else if s.alarmActive || s.snoozeActive then s
  else
    match checkDoseTime s.doses currentTime with
    | some i =>
        { s with alarmActive := true, activeDoseIndex := (i : Int),
                 currentMenu := MenuState.alert,
                 alarm := startAlarm s.alarm now AlarmPattern.standard }
    | none => s

/-- `checkMidnightReset()` in `main.cpp`: on a day change (with a known
previous day) resets the daily dose status and the lid counter; always
records the current day. -/
def checkMidnightResetStep (s : Sys) (day : Nat) : Sys :=
  if day ≠ s.currentDay ∧ s.currentDay ≠ 0 then
    { s with doses := resetDailyStatus s.doses,
             lid := { s.lid with openingsToday := 0 },
             currentDay := day }
  else { s with currentDay := day }

/-- The periodic time-check block of `loop()`: when TIME_CHECK_INTERVAL has
elapsed, records the check time and runs `checkDoseTime()` followed by
`checkMidnightReset()`, in that order. -/
def tickStep (s : Sys) (currentTime : Time12H) (day : Nat) (now : Nat) : Sys :=
  if now - s.lastTimeCheck ≥ TIME_CHECK_INTERVAL then
    checkMidnightResetStep
      (checkDoseTimeStep { s with lastTimeCheck := now } currentTime now) day
  else s

/-- The lid-during-alarm block of `loop()`: on a consumed `justOpened` edge
while the alarm is active, marks the active dose taken (when one is set),
stops the alarm, clears the alert and snooze markers and returns to HOME. -/
def lidAlarmStep (s : Sys) : Sys :=
  if s.alarmActive then
    let opened := lidJustOpened s.lid
    let s := { s with lid := opened.2 }
    if opened.1 then
      let s := if 0 ≤ s.activeDoseIndex then
          { s with doses := markDoseTaken s.doses s.activeDoseIndex.toNat }
        else s
      { s with alarm := stopAlarm s.alarm, alarmActive := false, snoozeActive := false,
               activeDoseIndex := -1, currentMenu := MenuState.home }
    else s
  else s

/-- The state handed to the per-state menu handler by one `loop()` iteration
(when the screen-wake early return is not taken): input updates, then the
periodic time check, then the lid-during-alarm block. -/
def preMenuState (now : Nat) (lidReading : Bool) (currentTime : Time12H) (day : Nat)
    (s : Sys) : Sys :=
  lidAlarmStep (tickStep
    { s with lid := lidUpdate s.lid lidReading now, alarm := alarmUpdate s.alarm now }
    currentTime day now)

/-- One iteration of `loop()` in `main.cpp`, with the per-state `switch`
handlers abstracted as `handle`: input updates; the screen-wake early return;
the periodic time check; the lid-during-alarm block; the menu handler; the
screen-timeout fallback to HOME. -/
def loopIter (handle : MenuState → Sys → Sys) (now : Nat) (lidReading : Bool)
    (anyBtnPressed screenOn uiTimeout : Bool) (currentTime : Time12H) (day : Nat)
    (s : Sys) : Sys :=
  if anyBtnPressed && !screenOn then
    { s with lid := lidUpdate s.lid lidReading now, alarm := alarmUpdate s.alarm now,
             lastActivity := now }
  else
    let s3 := preMenuState now lidReading currentTime day s
    let s4 := handle s3.currentMenu s3
    if !s4.alarmActive && uiTimeout then { s4 with currentMenu := MenuState.home } else s4

theorem checkDoseTimeStep_of_active (s : Sys) (currentTime : Time12H) (now : Nat)
    (h : s.alarmActive = true) : checkDoseTimeStep s currentTime now = s := by
  rw [checkDoseTimeStep]
  split_ifs with h1 h2
  · rfl
  · rfl
  · exact absurd (by simp [h]) h2

theorem checkMidnightResetStep_fields (s : Sys) (day : Nat) :
    (checkMidnightResetStep s day).alarmActive = s.alarmActive ∧
    (checkMidnightResetStep s day).activeDoseIndex = s.activeDoseIndex ∧
    (checkMidnightResetStep s day).lid.justOpenedFlag = s.lid.justOpenedFlag := by
  rw [checkMidnightResetStep]
  split_ifs <;> simp

theorem tickStep_of_active (s : Sys) (currentTime : Time12H) (day now : Nat)
    (h : s.alarmActive = true) :
    (tickStep s currentTime day now).alarmActive = true ∧
    (tickStep s currentTime day now).activeDoseIndex = s.activeDoseIndex ∧
    (tickStep s currentTime day now).lid.justOpenedFlag = s.lid.justOpenedFlag := by
  rw [tickStep]
  split_ifs with hdue
  · rw [checkDoseTimeStep_of_active _ _ _ (by simpa using h)]
    obtain ⟨f1, f2, f3⟩ :=
      checkMidnightResetStep_fields { s with lastTimeCheck := now } day
    refine ⟨?_, ?_, ?_⟩
    · rw [f1]; simpa using h
    · rw [f2]
    · rw [f3]
  · exact ⟨h, rfl, rfl⟩

theorem lidAlarmStep_fires (s : Sys) (ha : s.alarmActive = true)
    (hf : s.lid.justOpenedFlag = true) (hi : 0 ≤ s.activeDoseIndex) :
    lidAlarmStep s = { s with
      lid := { s.lid with justOpenedFlag := false },
      doses := markDoseTaken s.doses s.activeDoseIndex.toNat,
      alarm := stopAlarm s.alarm,
      alarmActive := false, snoozeActive := false, activeDoseIndex := -1,
      currentMenu := MenuState.home } := by
  rw [lidAlarmStep, if_pos ha, lidJustOpened, if_pos hf]
  simp [hi]

/-- Claim C4: in a loop iteration where the alarm is active, an active dose
index is set, the lid sensor's update produces a `justOpened` edge and the
screen-wake early return is not taken, the state handed to the per-state menu
handler already has the dose at `activeDoseIndex` marked taken, the alarm
engine stopped (output off), `snoozeActive` cleared, `activeDoseIndex` reset
to the -1 sentinel and the menu at HOME — regardless of whether
`snoozeActive` was true — and the iteration then invokes the HOME handler on
exactly that state. -/
theorem C4_lid_open_during_alert (handle : MenuState → Sys → Sys) (now : Nat)
    (lidReading anyBtnPressed screenOn uiTimeout : Bool) (currentTime : Time12H)
    (day : Nat) (s : Sys)
    (hact : s.alarmActive = true)
    (hidx : 0 ≤ s.activeDoseIndex)
    (hlid : (lidUpdate s.lid lidReading now).justOpenedFlag = true)
    (hwake : ¬(anyBtnPressed = true ∧ screenOn = false)) :
    (preMenuState now lidReading currentTime day s).doses =
      markDoseTaken
        (tickStep { s with lid := lidUpdate s.lid lidReading now,
                           alarm := alarmUpdate s.alarm now } currentTime day now).doses
        s.activeDoseIndex.toNat ∧
    (preMenuState now lidReading currentTime day s).alarm.active = false ∧
    (preMenuState now lidReading currentTime day s).alarm.buzzerOn = false ∧
    (preMenuState now lidReading currentTime day s).alarmActive = false ∧
    (preMenuState now lidReading currentTime day s).snoozeActive = false ∧
    (preMenuState now lidReading currentTime day s).activeDoseIndex = -1 ∧
    (preMenuState now lidReading currentTime day s).currentMenu = MenuState.home ∧
    loopIter handle now lidReading anyBtnPressed screenOn uiTimeout currentTime day s =
      (if !(handle MenuState.home (preMenuState now lidReading currentTime day s)).alarmActive
          && uiTimeout then
        { handle MenuState.home (preMenuState now lidReading currentTime day s) with
            currentMenu := MenuState.home }
      else handle MenuState.home (preMenuState now lidReading currentTime day s)) := by
  have h1a : ({ s with lid := lidUpdate s.lid lidReading now,
                       alarm := alarmUpdate s.alarm now } : Sys).alarmActive = true := by
    simpa using hact
  obtain ⟨h2a, h2i, h2f⟩ := tickStep_of_active
    { s with lid := lidUpdate s.lid lidReading now, alarm := alarmUpdate s.alarm now }
    currentTime day now h1a
  have h2f' : (tickStep { s with lid := lidUpdate s.lid lidReading now,
                                 alarm := alarmUpdate s.alarm now }
      currentTime day now).lid.justOpenedFlag = true := by
    rw [h2f]; simpa using hlid
  have h2i' : (tickStep { s with lid := lidUpdate s.lid lidReading now,
                                 alarm := alarmUpdate s.alarm now }
      currentTime day now).activeDoseIndex = s.activeDoseIndex := by
    rw [h2i]
  have hm := lidAlarmStep_fires _ h2a h2f' (by rw [h2i']; exact hidx)
  have hpre : preMenuState now lidReading currentTime day s =
      lidAlarmStep (tickStep { s with lid := lidUpdate s.lid lidReading now,
                                      alarm := alarmUpdate s.alarm now }
        currentTime day now) := rfl
  rw [hpre, hm]
  refine ⟨by simp [h2i'], by simp [stopAlarm, buzzerOutput],
    by simp [stopAlarm, buzzerOutput], by simp, by simp, by simp, by simp, ?_⟩
  have hguard : (anyBtnPressed && !screenOn) = false := by
    cases anyBtnPressed <;> cases screenOn <;> simp_all
  rw [loopIter, hguard]
  simp only [Bool.false_eq_true, if_false]
  rw [hpre, hm]

/-- Witness for C4 at concrete inputs: an active alert on dose 0, a lid edge
confirmed after the debounce windows, and the identity handler. -/
theorem C4_lid_open_during_alert_witness :
    ((preMenuState 1000 true ⟨9, 0, false⟩ 6
        ⟨true, false, true, true, 0, MenuState.alert, 6,
         [⟨⟨9, 0, false⟩, true, false, 0⟩],
         ⟨true, false, true, true, 128, .standard, 0, 0, 0⟩,
         ⟨false, true, true, false, false, true, 0, 0, 0, 0⟩, 900, 0⟩).doses =
      markDoseTaken
        (tickStep
          { (⟨true, false, true, true, 0, MenuState.alert, 6,
              [⟨⟨9, 0, false⟩, true, false, 0⟩],
              ⟨true, false, true, true, 128, .standard, 0, 0, 0⟩,
              ⟨false, true, true, false, false, true, 0, 0, 0, 0⟩, 900, 0⟩ : Sys) with
            lid := lidUpdate ⟨false, true, true, false, false, true, 0, 0, 0, 0⟩ true 1000,
            alarm := alarmUpdate ⟨true, false, true, true, 128, .standard, 0, 0, 0⟩ 1000 }
          ⟨9, 0, false⟩ 6 1000).doses
        (Int.toNat 0) ∧
     (preMenuState 1000 true ⟨9, 0, false⟩ 6
        ⟨true, false, true, true, 0, MenuState.alert, 6,
         [⟨⟨9, 0, false⟩, true, false, 0⟩],
         ⟨true, false, true, true, 128, .standard, 0, 0, 0⟩,
         ⟨false, true, true, false, false, true, 0, 0, 0, 0⟩, 900, 0⟩).alarm.active = false ∧
     (preMenuState 1000 true ⟨9, 0, false⟩ 6
        ⟨true, false, true, true, 0, MenuState.alert, 6,
         [⟨⟨9, 0, false⟩, true, false, 0⟩],
         ⟨true, false, true, true, 128, .standard, 0, 0, 0⟩,
         ⟨false, true, true, false, false, true, 0, 0, 0, 0⟩, 900, 0⟩).alarm.buzzerOn = false ∧
     (preMenuState 1000 true ⟨9, 0, false⟩ 6
        ⟨true, false, true, true, 0, MenuState.alert, 6,
         [⟨⟨9, 0, false⟩, true, false, 0⟩],
         ⟨true, false, true, true, 128, .standard, 0, 0, 0⟩,
         ⟨false, true, true, false, false, true, 0, 0, 0, 0⟩, 900, 0⟩).alarmActive = false ∧
     (preMenuState 1000 true ⟨9, 0, false⟩ 6
        ⟨true, false, true, true, 0, MenuState.alert, 6,
         [⟨⟨9, 0, false⟩, true, false, 0⟩],
         ⟨true, false, true, true, 128, .standard, 0, 0, 0⟩,
         ⟨false, true, true, false, false, true, 0, 0, 0, 0⟩, 900, 0⟩).snoozeActive = false ∧
     (preMenuState 1000 true ⟨9, 0, false⟩ 6
        ⟨true, false, true, true, 0, MenuState.alert, 6,
         [⟨⟨9, 0, false⟩, true, false, 0⟩],
         ⟨true, false, true, true, 128, .standard, 0, 0, 0⟩,
         ⟨false, true, true, false, false, true, 0, 0, 0, 0⟩, 900, 0⟩).activeDoseIndex = -1 ∧
     (preMenuState 1000 true ⟨9, 0, false⟩ 6
        ⟨true, false, true, true, 0, MenuState.alert, 6,
         [⟨⟨9, 0, false⟩, true, false, 0⟩],
         ⟨true, false, true, true, 128, .standard, 0, 0, 0⟩,
         ⟨false, true, true, false, false, true, 0, 0, 0, 0⟩, 900, 0⟩).currentMenu =
       MenuState.home ∧
     loopIter (fun _ st => st) 1000 true false true false ⟨9, 0, false⟩ 6
        ⟨true, false, true, true, 0, MenuState.alert, 6,
         [⟨⟨9, 0, false⟩, true, false, 0⟩],
         ⟨true, false, true, true, 128, .standard, 0, 0, 0⟩,
         ⟨false, true, true, false, false, true, 0, 0, 0, 0⟩, 900, 0⟩ =
      (if !((fun (_ : MenuState) (st : Sys) => st) MenuState.home
            (preMenuState 1000 true ⟨9, 0, false⟩ 6
              ⟨true, false, true, true, 0, MenuState.alert, 6,
               [⟨⟨9, 0, false⟩, true, false, 0⟩],
               ⟨true, false, true, true, 128, .standard, 0, 0, 0⟩,
               ⟨false, true, true, false, false, true, 0, 0, 0, 0⟩, 900, 0⟩)).alarmActive
          && false then
        { (fun (_ : MenuState) (st : Sys) => st) MenuState.home
            (preMenuState 1000 true ⟨9, 0, false⟩ 6
              ⟨true, false, true, true, 0, MenuState.alert, 6,
               [⟨⟨9, 0, false⟩, true, false, 0⟩],
               ⟨true, false, true, true, 128, .standard, 0, 0, 0⟩,
               ⟨false, true, true, false, false, true, 0, 0, 0, 0⟩, 900, 0⟩) with
            currentMenu := MenuState.home }
      else (fun (_ : MenuState) (st : Sys) => st) MenuState.home
            (preMenuState 1000 true ⟨9, 0, false⟩ 6
              ⟨true, false, true, true, 0, MenuState.alert, 6,
               [⟨⟨9, 0, false⟩, true, false, 0⟩],
               ⟨true, false, true, true, 128, .standard, 0, 0, 0⟩,
               ⟨false, true, true, false, false, true, 0, 0, 0, 0⟩, 900, 0⟩))) :=
  C4_lid_open_during_alert (fun _ st => st) 1000 true false true false ⟨9, 0, false⟩ 6
    ⟨true, false, true, true, 0, MenuState.alert, 6,
     [⟨⟨9, 0, false⟩, true, false, 0⟩],
     ⟨true, false, true, true, 128, .standard, 0, 0, 0⟩,
     ⟨false, true, true, false, false, true, 0, 0, 0, 0⟩, 900, 0⟩
    rfl (by decide) (by decide) (by decide)

/-- Modelled from the spec: the polling tick with the day-rollover check
performed before the dose-time match check, in the order section 5 of the
specification prescribes (the code under src performs the dose check first;
this definition exists only to compare the two orders). -/
def specOrderTick (s : Sys) (currentTime : Time12H) (day : Nat) (now : Nat) : Sys :=
  if now - s.lastTimeCheck ≥ TIME_CHECK_INTERVAL then
    checkDoseTimeStep (checkMidnightResetStep { s with lastTimeCheck := now } day)
      currentTime now
  else s

/-- Counterexample to claim C7 as stated: with one enabled dose at 12:00 AM
still marked taken from the previous day, at the first tick after midnight
the code clears the taken flag during that tick's rollover but raises no
alert, because `loop()` runs `checkDoseTime()` before `checkMidnightReset()`;
under the claimed rollover-first ordering the same tick would raise the
alert. -/
theorem C7_counterexample_dose_check_runs_first :
    (tickStep
      ⟨true, false, false, false, -1, MenuState.home, 5,
       [⟨⟨12, 0, false⟩, true, true, 0⟩], alarmBegin,
       ⟨false, true, true, false, false, true, 0, 0, 0, 0⟩, 0, 0⟩
      ⟨12, 0, false⟩ 6 1000).alarmActive = false ∧
    (tickStep
      ⟨true, false, false, false, -1, MenuState.home, 5,
       [⟨⟨12, 0, false⟩, true, true, 0⟩], alarmBegin,
       ⟨false, true, true, false, false, true, 0, 0, 0, 0⟩, 0, 0⟩
      ⟨12, 0, false⟩ 6 1000).doses = [⟨⟨12, 0, false⟩, true, false, 0⟩] ∧
    (specOrderTick
      ⟨true, false, false, false, -1, MenuState.home, 5,
       [⟨⟨12, 0, false⟩, true, true, 0⟩], alarmBegin,
       ⟨false, true, true, false, false, true, 0, 0, 0, 0⟩, 0, 0⟩
      ⟨12, 0, false⟩ 6 1000).alarmActive = true := by
  refine ⟨by decide, by decide, by decide⟩

/-- Claim C7 (amended): on every polling tick the dose-time match check runs
before the day-rollover check, so a dose whose taken flag is cleared by that
tick's rollover becomes visible as not-taken only from the next tick on: when
every matching dose is still marked taken at the start of a rollover tick,
that tick raises no alert but clears all taken flags and records the new day,
and the immediately following tick (same minute) raises the alert for the
freshly cleared dose. -/
theorem C7_rollover_after_dose_check (s : Sys) (currentTime : Time12H)
    (day now now2 i : Nat)
    (hen : s.alarmEnabled = true) (hmute : s.muteMode = false)
    (hact : s.alarmActive = false) (hsn : s.snoozeActive = false)
    (hdue : now - s.lastTimeCheck ≥ TIME_CHECK_INTERVAL)
    (hday : day ≠ s.currentDay) (hday0 : s.currentDay ≠ 0)
    (hnone : checkDoseTime s.doses currentTime = none)
    (hsome : checkDoseTime (resetDailyStatus s.doses) currentTime = some i)
    (hdue2 : now2 - now ≥ TIME_CHECK_INTERVAL) :
    (tickStep s currentTime day now).alarmActive = false ∧
    (tickStep s currentTime day now).doses = resetDailyStatus s.doses ∧
    (tickStep s currentTime day now).currentDay = day ∧
    (tickStep (tickStep s currentTime day now) currentTime day now2).alarmActive = true ∧
    (tickStep (tickStep s currentTime day now) currentTime day now2).activeDoseIndex =
      (i : Int) ∧
    (tickStep (tickStep s currentTime day now) currentTime day now2).currentMenu =
      MenuState.alert := by
  have hstep1 : tickStep s currentTime day now =
      { s with lastTimeCheck := now, doses := resetDailyStatus s.doses,
               lid := { s.lid with openingsToday := 0 }, currentDay := day } := by
    rw [tickStep, if_pos hdue, checkDoseTimeStep,
      if_neg (by simp [hen, hmute]), if_neg (by simp [hact, hsn])]
    simp only [hnone]
    rw [checkMidnightResetStep,
      if_pos (by exact ⟨by simpa using hday, by simpa using hday0⟩)]
  rw [hstep1]
  refine ⟨by simpa using hact, by simp, by simp, ?_⟩
  have hstep2 : tickStep
      ({ s with lastTimeCheck := now, doses := resetDailyStatus s.doses,
                lid := { s.lid with openingsToday := 0 }, currentDay := day } : Sys)
      currentTime day now2 =
      { s with lastTimeCheck := now2, doses := resetDailyStatus s.doses,
               lid := { s.lid with openingsToday := 0 }, currentDay := day,
               alarmActive := true, activeDoseIndex := (i : Int),
               currentMenu := MenuState.alert,
               alarm := startAlarm s.alarm now2 AlarmPattern.standard } := by
    rw [tickStep, if_pos (by simpa using hdue2), checkDoseTimeStep,
      if_neg (by simp [hen, hmute]), if_neg (by simp [hact, hsn])]
    simp only [hsome]
    rw [checkMidnightResetStep, if_neg (by simp)]
  rw [hstep2]
  exact ⟨by simp, by simp, by simp⟩

/-- Witness for C7 at concrete inputs: the two consecutive ticks of the
counterexample state, one second apart. -/
theorem C7_rollover_after_dose_check_witness :
    (tickStep
      ⟨true, false, false, false, -1, MenuState.home, 5,
       [⟨⟨12, 0, false⟩, true, true, 0⟩], alarmBegin,
       ⟨false, true, true, false, false, true, 0, 0, 0, 0⟩, 0, 0⟩
      ⟨12, 0, false⟩ 6 1000).alarmActive = false ∧
    (tickStep
      ⟨true, false, false, false, -1, MenuState.home, 5,
       [⟨⟨12, 0, false⟩, true, true, 0⟩], alarmBegin,
       ⟨false, true, true, false, false, true, 0, 0, 0, 0⟩, 0, 0⟩
      ⟨12, 0, false⟩ 6 1000).doses =
      resetDailyStatus [⟨⟨12, 0, false⟩, true, true, 0⟩] ∧
    (tickStep
      ⟨true, false, false, false, -1, MenuState.home, 5,
       [⟨⟨12, 0, false⟩, true, true, 0⟩], alarmBegin,
       ⟨false, true, true, false, false, true, 0, 0, 0, 0⟩, 0, 0⟩
      ⟨12, 0, false⟩ 6 1000).currentDay = 6 ∧
    (tickStep (tickStep
      ⟨true, false, false, false, -1, MenuState.home, 5,
       [⟨⟨12, 0, false⟩, true, true, 0⟩], alarmBegin,
       ⟨false, true, true, false, false, true, 0, 0, 0, 0⟩, 0, 0⟩
      ⟨12, 0, false⟩ 6 1000) ⟨12, 0, false⟩ 6 2000).alarmActive = true ∧
    (tickStep (tickStep
      ⟨true, false, false, false, -1, MenuState.home, 5,
       [⟨⟨12, 0, false⟩, true, true, 0⟩], alarmBegin,
       ⟨false, true, true, false, false, true, 0, 0, 0, 0⟩, 0, 0⟩
      ⟨12, 0, false⟩ 6 1000) ⟨12, 0, false⟩ 6 2000).activeDoseIndex = ((0 : Nat) : Int) ∧
    (tickStep (tickStep
      ⟨true, false, false, false, -1, MenuState.home, 5,
       [⟨⟨12, 0, false⟩, true, true, 0⟩], alarmBegin,
       ⟨false, true, true, false, false, true, 0, 0, 0, 0⟩, 0, 0⟩
      ⟨12, 0, false⟩ 6 1000) ⟨12, 0, false⟩ 6 2000).currentMenu = MenuState.alert :=
  C7_rollover_after_dose_check
    ⟨true, false, false, false, -1, MenuState.home, 5,
     [⟨⟨12, 0, false⟩, true, true, 0⟩], alarmBegin,
     ⟨false, true, true, false, false, true, 0, 0, 0, 0⟩, 0, 0⟩
    ⟨12, 0, false⟩ 6 1000 2000 0
    rfl rfl rfl rfl (by decide) (by decide) (by decide) (by decide) (by decide) (by decide)

end PillBox
